import Mathlib

/-!
# Verification of the brontes MEV-classification core

A shallow embedding, in Lean 4, of the parts of the brontes repository that
the checked claims are about:

* the time-window VWAP CEX trade pricer
  (`crates/brontes-types/src/db/cex/trades/time_window_vwam.rs`),
* the CEX/DEX inspector (`crates/brontes-inspect/src/cex_dex.rs`),
* the atomic-arb inspector (`crates/brontes-inspect/src/atomic_backrun.rs`),
* the range executor (`crates/bin/src/executors/range.rs`).

Conventions of the embedding:
* Rust `Rational` (malachite, arbitrary precision) is `ℚ`.
* Rust `u64` timestamps are `ℕ`; `u64` subtraction in the source only occurs
  where the source relies on non-underflow, and `ℕ` monus is noted where used.
* `Address` is `ℕ` (only equality of addresses is ever used).
* Hash maps are association lists (`List (κ × α)`); Rust hash maps have unique
  keys, and lookups are embedded by first-match lookup.
* Fallible Rust code becomes `Option`; a Rust `panic!`/`unwrap` on a missing
  value is an explicit `Option` whose `none` marks the panic.
* Externally supplied constants and helpers that the repository defines outside
  the sampled sources (per-exchange fee tables, the trade-weighting function,
  shared inspector utilities) are taken as explicit parameters so that the
  embedded control flow is exactly that of the source.
-/

namespace Brontes

/-- 20-byte account identifier; only equality is used, so we take `ℕ`. -/
abbrev Address : Type := ℕ

/-- `Pair(Address, Address)` tuple struct (`pair.rs`): fields `.0` / `.1`. -/
structure Pair where
  fst : Address
  snd : Address
deriving DecidableEq, Repr

/-- `Pair::flip` reverses the two components. -/
def Pair.flip (p : Pair) : Pair := ⟨p.snd, p.fst⟩

/-- Modelled from the spec: the `CexExchange` enum is defined outside the
sampled sources; the spec lists its tags as "(Binance, Coinbase, Kraken, …)",
so we take a representative enum with that declaration order. -/
inductive CexExchange where
  | Binance
  | Coinbase
  | Kraken
  | Okex
deriving DecidableEq, Repr

/-- Modelled from the spec: the natural (derived) order of a Rust enum is its
declaration order; `natOrder` is the constructor index in that order. -/
def CexExchange.natOrder : CexExchange → ℕ
  | .Binance => 0
  | .Coinbase => 1
  | .Kraken => 2
  | .Okex => 3

/-- `ExchangePath` (time_window_vwam.rs): price/volume of one leg on one
exchange together with the final trade window used. -/
structure ExchangePath where
  price_maker : ℚ
  price_taker : ℚ
  volume : ℚ
  final_start_time : ℕ
  final_end_time : ℕ
deriving DecidableEq, Repr

/-- The `Default` instance of `ExchangePath` (all fields zero). -/
def ExchangePath.default : ExchangePath :=
  { price_maker := 0, price_taker := 0, volume := 0
    final_start_time := 0, final_end_time := 0 }

/-- `WindowExchangePrice` (time_window_vwam.rs): per-exchange paths, the pairs
traded through, and the global path.  The per-exchange hash map is an
association list with unique keys. -/
structure WindowExchangePrice where
  exchange_price_with_volume_direct : List (CexExchange × ExchangePath)
  pairs : List Pair
  global : ExchangePath
deriving DecidableEq, Repr

/-- The `Default` instance of `WindowExchangePrice`. -/
def WindowExchangePrice.default : WindowExchangePrice :=
  { exchange_price_with_volume_direct := [], pairs := [], global := ExchangePath.default }

/-- First-match lookup in the association-list embedding of a hash map. -/
def lookupEx (m : List (CexExchange × ExchangePath)) (ex : CexExchange) :
    Option ExchangePath :=
  match m with
  | [] => none
  | (e, p) :: rest => if e = ex then some p else lookupEx rest ex

/-- The body of the per-exchange inner join of `impl Mul for
WindowExchangePrice`: prices multiplied, window bounds min/max-ed, first-leg
volume kept. -/
def ExchangePath.join (first_leg second_leg : ExchangePath) : ExchangePath :=
  { price_maker := first_leg.price_maker * second_leg.price_maker
    price_taker := first_leg.price_taker * second_leg.price_taker
    volume := first_leg.volume
    final_start_time := min first_leg.final_start_time second_leg.final_start_time
    final_end_time := max first_leg.final_end_time second_leg.final_end_time }

/-- `impl Mul for WindowExchangePrice` (time_window_vwam.rs lines 57–89).
The source iterates the left map and `remove`s the matching entry from the
right map; with unique keys on the left this is the inner join embedded here
by lookup. -/
def WindowExchangePrice.mul (lhs rhs : WindowExchangePrice) : WindowExchangePrice :=
  { exchange_price_with_volume_direct :=
      lhs.exchange_price_with_volume_direct.filterMap (fun entry =>
        match lookupEx rhs.exchange_price_with_volume_direct entry.1 with
        | none => none
        | some second_leg => some (entry.1, entry.2.join second_leg))
    pairs := lhs.pairs ++ rhs.pairs
    global :=
      { price_maker := lhs.global.price_maker * rhs.global.price_maker
        price_taker := lhs.global.price_taker * rhs.global.price_taker
        volume := lhs.global.volume
        final_start_time := min lhs.global.final_start_time rhs.global.final_start_time
        final_end_time := max lhs.global.final_end_time rhs.global.final_end_time } }

theorem lookupEx_nil (ex : CexExchange) : lookupEx [] ex = none := rfl

theorem lookupEx_cons (e : CexExchange) (p : ExchangePath)
    (rest : List (CexExchange × ExchangePath)) (ex : CexExchange) :
    lookupEx ((e, p) :: rest) ex = if e = ex then some p else lookupEx rest ex := rfl

/-- The inner join commutes with lookup: the joined map holds `ex` exactly when
both factors do, and then holds the joined path. -/
theorem lookupEx_mul (lhs rhs : WindowExchangePrice) (ex : CexExchange) :
    lookupEx (lhs.mul rhs).exchange_price_with_volume_direct ex =
      (lookupEx lhs.exchange_price_with_volume_direct ex).bind (fun f =>
        (lookupEx rhs.exchange_price_with_volume_direct ex).map (fun s => f.join s)) := by
  unfold WindowExchangePrice.mul
  simp only
  induction lhs.exchange_price_with_volume_direct with
  | nil => simp [lookupEx_nil]
  | cons head tail ih =>
    obtain ⟨e, p⟩ := head
    by_cases h : e = ex
    · subst h
      cases hr : lookupEx rhs.exchange_price_with_volume_direct e with
      | none => simp [List.filterMap_cons, hr, lookupEx_cons, ih]
      | some s => simp [List.filterMap_cons, hr, lookupEx_cons]
    · cases hr : lookupEx rhs.exchange_price_with_volume_direct e with
      | none => simp [List.filterMap_cons, hr, lookupEx_cons, h, ih]
      | some s => simp [List.filterMap_cons, hr, lookupEx_cons, h, ih]

/-- C10: the product of two `WindowExchangePrice`s multiplies the global maker
and taker prices, takes min/max of the global window bounds, concatenates the
pairs lists, and per exchange is the inner join on the exchange key with
multiplied prices and min/max-ed window bounds. -/
theorem c10_window_exchange_price_mul (p1 p2 : WindowExchangePrice) :
    (p1.mul p2).global.price_maker = p1.global.price_maker * p2.global.price_maker
    ∧ (p1.mul p2).global.price_taker = p1.global.price_taker * p2.global.price_taker
    ∧ (p1.mul p2).global.final_start_time
        = min p1.global.final_start_time p2.global.final_start_time
    ∧ (p1.mul p2).global.final_end_time
        = max p1.global.final_end_time p2.global.final_end_time
    ∧ (p1.mul p2).pairs = p1.pairs ++ p2.pairs
    ∧ ∀ ex, lookupEx (p1.mul p2).exchange_price_with_volume_direct ex =
        (lookupEx p1.exchange_price_with_volume_direct ex).bind (fun f =>
          (lookupEx p2.exchange_price_with_volume_direct ex).map (fun s =>
            { price_maker := f.price_maker * s.price_maker
              price_taker := f.price_taker * s.price_taker
              volume := f.volume
              final_start_time := min f.final_start_time s.final_start_time
              final_end_time := max f.final_end_time s.final_end_time })) := by
  refine ⟨rfl, rfl, rfl, rfl, rfl, fun ex => ?_⟩
  exact lookupEx_mul p1 p2 ex

/-! ## Time-window VWAP pricer (time_window_vwam.rs) -/

/-- `CexTrades`: one CEX trade.  The source also carries a side; it is unused
by the sampled pricing code. -/
structure CexTrades where
  exchange : CexExchange
  timestamp : ℕ
  price : ℚ
  amount : ℚ
deriving DecidableEq, Repr

/-- `CexDexTradeConfig` (crate-private config module; fields per the spec's
interface section: the two dynamic-window caps in microseconds). -/
structure CexDexTradeConfig where
  time_window_before_us : ℕ
  time_window_after_us : ℕ
deriving DecidableEq, Repr

/-- Externally defined helpers the pricer calls: `CexExchange::fees(&pair,
Spot)` (per-exchange constant maker/taker fees, defined outside the sampled
sources) and `calculate_weight` (whose source computes an `f64` bi-exponential
decay, not representable exactly; the checked claims hold for every weight
function). -/
structure ExternEnv where
  fees : CexExchange → Pair → ℚ × ℚ
  weight : ℕ → ℕ → ℚ

def START_POST_TIME_US : ℕ := 50000
def START_PRE_TIME_US : ℕ := 50000
def PRE_SCALING_DIFF : ℕ := 300000
def TIME_STEP : ℕ := 10000
def U64_MAX : ℕ := 2 ^ 64 - 1

/-- Modelled from the spec: `PairTradeWalker` lives in the crate-private
`trades/utils.rs`, which is not among the sampled sources.  Per the spec it
holds the current window around the block timestamp over per-exchange
time-sorted trade vectors and each pull yields exactly the trades whose
timestamp falls in the current window and that were not yielded before (the
source tracks this with per-exchange index pointers anchored at the block
timestamp; `yielded` records the already-pulled sub-window instead). -/
structure PairTradeWalker where
  trades : List (CexExchange × List CexTrades)
  exchange_ptrs : List (CexExchange × (ℕ × ℕ))
  min_timestamp : ℕ
  max_timestamp : ℕ
  yielded : Option (ℕ × ℕ)
deriving DecidableEq, Repr

/-- `PairTradeWalker::new(trades, indices, lo, hi)`. -/
def PairTradeWalker.new (trades : List (CexExchange × List CexTrades))
    (indices : List (CexExchange × (ℕ × ℕ))) (lo hi : ℕ) : PairTradeWalker :=
  { trades := trades, exchange_ptrs := indices, min_timestamp := lo, max_timestamp := hi
    yielded := none }

/-- The not-yet-yielded trades whose timestamp lies in the current window. -/
def PairTradeWalker.newTrades (w : PairTradeWalker) : List CexTrades :=
  w.trades.flatMap (fun entry =>
    entry.2.filter (fun t =>
      decide (w.min_timestamp ≤ t.timestamp ∧ t.timestamp ≤ w.max_timestamp) &&
      !(match w.yielded with
        | none => false
        | some y => decide (y.1 ≤ t.timestamp ∧ t.timestamp ≤ y.2))))

/-- Modelled from the spec: `PairTradeWalker::get_trades_for_window` pulls all
trades in the current window via the anchored indices; each trade is yielded
once. -/
def PairTradeWalker.get_trades_for_window (w : PairTradeWalker) :
    List CexTrades × PairTradeWalker :=
  (w.newTrades, { w with yielded := some (w.min_timestamp, w.max_timestamp) })

/-- Modelled from the spec: distance from the block timestamp to the pre
(lower) window bound. -/
def PairTradeWalker.get_min_time_delta (w : PairTradeWalker) (ts : ℕ) : ℕ :=
  ts - w.min_timestamp

/-- Modelled from the spec: distance from the block timestamp to the post
(upper) window bound. -/
def PairTradeWalker.get_max_time_delta (w : PairTradeWalker) (ts : ℕ) : ℕ :=
  w.max_timestamp - ts

/-- Modelled from the spec: step the pre bound down by `pre` and the post bound
up by `post`. -/
def PairTradeWalker.expand_time_bounds (w : PairTradeWalker) (pre post : ℕ) :
    PairTradeWalker :=
  { w with min_timestamp := w.min_timestamp - pre, max_timestamp := w.max_timestamp + post }

/-- The per-exchange accumulator sextuple of the VWAP loop
(`exchange_vxp.entry(..).or_insert((0, 0, 0, 0, 0u64, 0u64))`). -/
structure ExchangeAcc where
  vxp_maker : ℚ
  vxp_taker : ℚ
  trade_volume_weight : ℚ
  trade_volume_ex : ℚ
  start_time : ℕ
  end_time : ℕ
deriving DecidableEq, Repr

def ExchangeAcc.zero : ExchangeAcc :=
  { vxp_maker := 0, vxp_taker := 0, trade_volume_weight := 0, trade_volume_ex := 0
    start_time := 0, end_time := 0 }

/-- The hash map `entry(ex).or_insert(zero)` update, on the association-list
embedding. -/
def updateAcc (m : List (CexExchange × ExchangeAcc)) (ex : CexExchange)
    (f : ExchangeAcc → ExchangeAcc) : List (CexExchange × ExchangeAcc) :=
  match m with
  | [] => [(ex, f ExchangeAcc.zero)]
  | (e, a) :: rest => if e = ex then (e, f a) :: rest else (e, a) :: updateAcc rest ex f

/-- The body of the per-trade accumulation in `get_vwap_price` (lines 310–342):
fee-adjusted volume-and-weight products, raw per-exchange and global volume,
and the current window bounds. -/
def processTrade (env : ExternEnv) (pair : Pair) (block_timestamp wmin wmax : ℕ)
    (st : ℚ × List (CexExchange × ExchangeAcc)) (trade : CexTrades) :
    ℚ × List (CexExchange × ExchangeAcc) :=
  let fee := env.fees trade.exchange pair
  let w := env.weight block_timestamp trade.timestamp
  (st.1 + trade.amount,
    updateAcc st.2 trade.exchange (fun a =>
      { vxp_maker := a.vxp_maker + trade.price * (1 - fee.1) * trade.amount * w
        vxp_taker := a.vxp_taker + trade.price * (1 - fee.2) * trade.amount * w
        trade_volume_weight := a.trade_volume_weight + trade.amount * w
        trade_volume_ex := a.trade_volume_ex + trade.amount
        start_time := wmin
        end_time := wmax }))

/-- The `while trade_volume_global.le(vol)` window-expansion loop of
`get_vwap_price` (lines 308–356).  Per iteration: pull the window's new
trades, accumulate them, break if either window cap is reached, else expand
(post bound always by `TIME_STEP`, pre bound only once the post delta reached
`PRE_SCALING_DIFF`). -/
def vwapLoop (env : ExternEnv) (config : CexDexTradeConfig) (pair : Pair) (vol : ℚ)
    (block_timestamp : ℕ) (walker : PairTradeWalker) (trade_volume_global : ℚ)
    (exchange_vxp : List (CexExchange × ExchangeAcc)) :
    ℚ × List (CexExchange × ExchangeAcc) :=
  if trade_volume_global ≤ vol then
    let st := walker.get_trades_for_window.1.foldl
      (processTrade env pair block_timestamp walker.min_timestamp walker.max_timestamp)
      (trade_volume_global, exchange_vxp)
    if config.time_window_before_us
          ≤ walker.get_trades_for_window.2.get_min_time_delta block_timestamp
        ∨ config.time_window_after_us
          ≤ walker.get_trades_for_window.2.get_max_time_delta block_timestamp then
      st
    else
      vwapLoop env config pair vol block_timestamp
        (walker.get_trades_for_window.2.expand_time_bounds
          (if PRE_SCALING_DIFF
              ≤ walker.get_trades_for_window.2.get_max_time_delta block_timestamp
            then TIME_STEP else 0)
          TIME_STEP)
        st.1 st.2
  else (trade_volume_global, exchange_vxp)
termination_by config.time_window_after_us + block_timestamp - walker.max_timestamp
decreasing_by
  simp only [PairTradeWalker.get_trades_for_window, PairTradeWalker.get_max_time_delta,
    PairTradeWalker.get_min_time_delta, PairTradeWalker.expand_time_bounds, TIME_STEP] at *
  omega

/-- `Direction` (time_window_vwam.rs). -/
inductive Direction where
  | Buy
  | Sell
deriving DecidableEq, Repr

/-- `TradeData` (time_window_vwam.rs). -/
structure TradeData where
  indices : List (CexExchange × (ℕ × ℕ))
  trades : List (CexExchange × List CexTrades)
  direction : Direction
deriving DecidableEq, Repr

/-- `TimeWindowTrades`: the per-exchange, per-pair anchored trade view plus the
precomputed intermediary-address set. -/
structure TimeWindowTrades where
  trades : List (CexExchange × List (Pair × (ℕ × List CexTrades)))
  intermediaries : List Address
deriving DecidableEq, Repr

/-- First-match association-list lookup (hash map `get`). -/
def alookup {α β : Type} [DecidableEq α] (m : List (α × β)) (k : α) : Option β :=
  match m with
  | [] => none
  | (a, b) :: rest => if a = k then some b else alookup rest k

/-- `TimeWindowTrades::query_trades` (lines 487–499): the per-exchange anchor
pointers `(idx-1, idx)` and trade vectors for `pair`, restricted to the active
exchanges, dropping empty vectors. -/
def TimeWindowTrades.query_trades (self : TimeWindowTrades)
    (exchanges : List CexExchange) (pair : Pair) :
    List (CexExchange × (ℕ × ℕ)) × List (CexExchange × List CexTrades) :=
  (self.trades.filterMap (fun entry =>
    if entry.1 ∈ exchanges then
      match alookup entry.2 pair with
      | none => none
      | some it =>
        if it.2.isEmpty then none
        else some ((entry.1, (it.1 - 1, it.1)), (entry.1, it.2))
    else none)).unzip

/-- `TimeWindowTrades::get_trades` (lines 438–485): try the pair as given; if
it has no trades at all, retry the flipped pair with direction `Buy`; `none`
when both orientations are empty.  (Logging dropped.) -/
def TimeWindowTrades.get_trades (self : TimeWindowTrades)
    (exchanges : List CexExchange) (pair : Pair) : Option TradeData :=
  let q := self.query_trades exchanges pair
  if (q.2.map (fun x => x.2.length)).sum = 0 then
    let fq := self.query_trades exchanges pair.flip
    if (fq.2.map (fun x => x.2.length)).sum ≠ 0 then
      some { indices := fq.1, trades := fq.2, direction := Direction.Buy }
    else none
  else some { indices := q.1, trades := q.2, direction := Direction.Sell }

/-- The state of the aggregation fold of `get_vwap_price` (lines 369–401). -/
structure AggState where
  per_exchange_price : List (CexExchange × ExchangePath)
  global_maker : ℚ
  global_taker : ℚ
  global_start_time : ℕ
  global_end_time : ℕ
deriving DecidableEq, Repr

/-- One step of the aggregation over `exchange_vxp`: skip exchanges with zero
weighted volume; otherwise divide out the weighted volume, add the
raw-volume-weighted contribution to the global sums, and record the exchange
path and window union. -/
def aggStep (st : AggState) (e : CexExchange × ExchangeAcc) : AggState :=
  if e.2.trade_volume_weight = 0 then st
  else
    let maker_price := e.2.vxp_maker / e.2.trade_volume_weight
    let taker_price := e.2.vxp_taker / e.2.trade_volume_weight
    { per_exchange_price := st.per_exchange_price ++
        [(e.1, { volume := e.2.trade_volume_ex, price_maker := maker_price
                 price_taker := taker_price, final_end_time := e.2.end_time
                 final_start_time := e.2.start_time })]
      global_maker := st.global_maker + maker_price * e.2.trade_volume_ex
      global_taker := st.global_taker + taker_price * e.2.trade_volume_ex
      global_start_time := min st.global_start_time e.2.start_time
      global_end_time := max st.global_end_time e.2.end_time }

/-- The tail of `get_vwap_price` after the expansion loop (lines 358–435): the
insufficient-volume guard, the per-exchange aggregation, the zero-volume guard
and the assembly of the result. -/
def vwapFinish (pair : Pair) (vol : ℚ) (bypass_vol : Bool)
    (res : ℚ × List (CexExchange × ExchangeAcc)) : Option WindowExchangePrice :=
  if res.1 < vol ∧ bypass_vol = false then none
  else
    let agg := res.2.foldl aggStep
      { per_exchange_price := [], global_maker := 0, global_taker := 0
        global_start_time := U64_MAX, global_end_time := 0 }
    let global_start_time :=
      if agg.global_start_time = U64_MAX then 0 else agg.global_start_time
    if res.1 = 0 then none
    else some
      { exchange_price_with_volume_direct := agg.per_exchange_price
        pairs := [pair]
        global :=
          { volume := res.1
            price_maker := agg.global_maker / res.1
            price_taker := agg.global_taker / res.1
            final_start_time := global_start_time
            final_end_time := agg.global_end_time } }

/-- `TimeWindowTrades::get_vwap_price` (lines 285–436).  `dex_swap` and
`tx_hash` only feed log lines in the source and are dropped here. -/
def TimeWindowTrades.get_vwap_price (self : TimeWindowTrades) (env : ExternEnv)
    (config : CexDexTradeConfig) (exchanges : List CexExchange) (pair : Pair)
    (vol : ℚ) (block_timestamp : ℕ) (bypass_vol : Bool) :
    Option WindowExchangePrice :=
  match self.get_trades exchanges pair with
  | none => none
  | some trade_data =>
    let walker := PairTradeWalker.new trade_data.trades trade_data.indices
      (block_timestamp - START_PRE_TIME_US) (block_timestamp + START_POST_TIME_US)
    vwapFinish pair vol bypass_vol (vwapLoop env config pair vol block_timestamp walker 0 [])

/-- Modelled from the spec: the USDC / USDT token address constants
(`constants.rs`, not among the sampled sources); only their identity matters,
so representative distinct values are fixed. -/
def USDC_ADDRESS : Address := 1

/-- Modelled from the spec: see `USDC_ADDRESS`. -/
def USDT_ADDRESS : Address := 2

/-- Rust `Iterator::max_by_key` on the association of each element to a key:
`none` on the empty list, and the LAST maximal element on ties. -/
def maxByKeyLast {α β : Type} [LinearOrder β] (key : α → β) (l : List α) : Option α :=
  l.foldl (fun acc x =>
    match acc with
    | none => some x
    | some a => if key a ≤ key x then some x else some a) none

/-- The per-intermediary closure of `get_vwap_price_via_intermediary` (lines
185–235): leg 1 is `(pair.0, X)` at the requested volume, leg 2 is
`(X, pair.1)` at `first_leg.global.price_maker * volume`; each leg bypasses
the volume requirement when the caller's `bypass_vol` is set or the leg is
exactly the USDC/USDT stable pair; the candidate is the composed price. -/
def TimeWindowTrades.intermediaryPrice (self : TimeWindowTrades)
    (env : ExternEnv) (config : CexDexTradeConfig) (exchanges : List CexExchange)
    (pair : Pair) (vol : ℚ) (block_timestamp : ℕ) (bypass_vol : Bool)
    (intermediary : Address) : Option WindowExchangePrice :=
  let pair0 : Pair := ⟨pair.fst, intermediary⟩
  let pair1 : Pair := ⟨intermediary, pair.snd⟩
  let bypass_vol0 : Bool :=
    decide ((pair0.fst = USDC_ADDRESS ∧ pair0.snd = USDT_ADDRESS)
      ∨ (pair0.fst = USDT_ADDRESS ∧ pair0.snd = USDC_ADDRESS))
  match self.get_vwap_price env config exchanges pair0 vol block_timestamp
      (bypass_vol || bypass_vol0) with
  | none => none
  | some first_leg =>
    let second_leg_volume := first_leg.global.price_maker * vol
    let bypass_vol1 : Bool :=
      decide ((pair1.fst = USDT_ADDRESS ∧ pair1.snd = USDC_ADDRESS)
        ∨ (pair1.fst = USDC_ADDRESS ∧ pair1.snd = USDT_ADDRESS))
    match self.get_vwap_price env config exchanges pair1 second_leg_volume
        block_timestamp (bypass_vol || bypass_vol1) with
    | none => none
    | some second_leg => some (first_leg.mul second_leg)

/-- `TimeWindowTrades::get_vwap_price_via_intermediary` (lines 172–237): keep,
over all intermediaries, the composed candidate price with maximal global
maker price (`max_by_key` — the last maximal candidate on ties). -/
def TimeWindowTrades.get_vwap_price_via_intermediary (self : TimeWindowTrades)
    (env : ExternEnv) (config : CexDexTradeConfig) (exchanges : List CexExchange)
    (pair : Pair) (vol : ℚ) (block_timestamp : ℕ) (bypass_vol : Bool) :
    Option WindowExchangePrice :=
  maxByKeyLast (fun a => a.global.price_maker)
    (self.intermediaries.filterMap
      (self.intermediaryPrice env config exchanges pair vol block_timestamp bypass_vol))

/-- `TimeWindowTrades::get_price` (lines 140–170): identity pairs price at the
default; otherwise the direct VWAP price, falling back to the via-intermediary
price.  (The failure log line is dropped.) -/
def TimeWindowTrades.get_price (self : TimeWindowTrades) (env : ExternEnv)
    (config : CexDexTradeConfig) (exchanges : List CexExchange) (pair : Pair)
    (vol : ℚ) (timestamp : ℕ) (bypass_vol : Bool) : Option WindowExchangePrice :=
  if pair.fst = pair.snd then some WindowExchangePrice.default
  else
    match self.get_vwap_price env config exchanges pair vol timestamp bypass_vol with
    | some res => some res
    | none =>
      self.get_vwap_price_via_intermediary env config exchanges pair vol timestamp bypass_vol

/-! ## Claim C2: termination condition of the window-expansion loop -/

/-- Concrete trade store for the C2 counterexample: one trade of amount 5 in
the initial window, a second trade of amount 5 at block time + 55 000 µs. -/
def c2pair : Pair := ⟨10, 20⟩

def c2env : ExternEnv := ⟨fun _ _ => (0, 0), fun _ _ => 1⟩

def c2cfg : CexDexTradeConfig := ⟨1000000, 1000000⟩

def c2tw : TimeWindowTrades :=
  { trades := [(CexExchange.Binance,
      [(c2pair, (1, [⟨CexExchange.Binance, 1000000, 3, 5⟩,
                     ⟨CexExchange.Binance, 1055000, 7, 5⟩]))])]
    intermediaries := [] }

def c2trade1 : CexTrades := ⟨CexExchange.Binance, 1000000, 3, 5⟩

def c2trade2 : CexTrades := ⟨CexExchange.Binance, 1055000, 7, 5⟩

def c2walker0 : PairTradeWalker :=
  PairTradeWalker.new [(CexExchange.Binance, [c2trade1, c2trade2])]
    [(CexExchange.Binance, (0, 1))] 950000 1050000

theorem c2_loop_eval :
    vwapLoop c2env c2cfg c2pair 5 1000000 c2walker0 0 [] =
      (10, [(CexExchange.Binance, ⟨50, 50, 10, 10, 950000, 1060000⟩)]) := by
  unfold vwapLoop
  norm_num [c2walker0, c2env, c2cfg, c2pair, c2trade1, c2trade2, PairTradeWalker.new,
    PairTradeWalker.get_trades_for_window, PairTradeWalker.newTrades,
    PairTradeWalker.get_min_time_delta, PairTradeWalker.get_max_time_delta,
    PairTradeWalker.expand_time_bounds, processTrade, updateAcc, ExchangeAcc.zero,
    PRE_SCALING_DIFF, TIME_STEP]
  unfold vwapLoop
  norm_num [c2env, c2cfg, c2pair, c2trade1, c2trade2,
    PairTradeWalker.get_trades_for_window, PairTradeWalker.newTrades,
    PairTradeWalker.get_min_time_delta, PairTradeWalker.get_max_time_delta,
    PairTradeWalker.expand_time_bounds, processTrade, updateAcc, ExchangeAcc.zero,
    PRE_SCALING_DIFF, TIME_STEP]
  unfold vwapLoop
  norm_num

/-- C2 counterexample: with the requested volume 5, the trades of the initial
window `[950000, 1050000]` accumulate exactly 5 — yet the emitted price has
global volume 10: the loop expanded the window once more and accumulated the
trade at 1 055 000 µs, because the source loop keeps running while
`trade_volume_global ≤ vol` (`le`, not `<`).  This falsifies "for every input
where the accumulated volume exactly equals volume_needed, no further
expansion step is taken". -/
theorem c2_counterexample :
    (c2walker0.get_trades_for_window.1.foldl
      (processTrade c2env c2pair 1000000 950000 1050000) (0, [])).1 = 5
    ∧ (c2tw.get_vwap_price c2env c2cfg [CexExchange.Binance] c2pair 5 1000000 false).map
        (fun p => p.global.volume) = some 10
    ∧ (10 : ℚ) ≠ 5 := by
  refine ⟨?_, ?_, by norm_num⟩
  · norm_num [c2walker0, PairTradeWalker.new, PairTradeWalker.get_trades_for_window,
      PairTradeWalker.newTrades, processTrade, updateAcc, ExchangeAcc.zero, c2env, c2pair,
      c2trade1, c2trade2]
  · have hgt : c2tw.get_trades [CexExchange.Binance] c2pair
        = some { indices := [(CexExchange.Binance, (0, 1))]
                 trades := [(CexExchange.Binance, [c2trade1, c2trade2])]
                 direction := Direction.Sell } := by
      norm_num [c2tw, c2pair, c2trade1, c2trade2, TimeWindowTrades.get_trades,
        TimeWindowTrades.query_trades, alookup, List.filterMap_cons, Pair.flip,
        List.cons_ne_nil]
    have hw : PairTradeWalker.new [(CexExchange.Binance, [c2trade1, c2trade2])]
        [(CexExchange.Binance, (0, 1))] (1000000 - START_PRE_TIME_US)
        (1000000 + START_POST_TIME_US) = c2walker0 := by
      norm_num [c2walker0, START_PRE_TIME_US, START_POST_TIME_US]
    simp only [TimeWindowTrades.get_vwap_price, hgt, hw, c2_loop_eval]
    norm_num [vwapFinish, aggStep, U64_MAX]

/-- C2 (amended): the window-expansion loop terminates immediately once the
accumulated global trade volume STRICTLY exceeds the requested volume — the
source guard is `trade_volume_global.le(vol)`, so at exact equality one more
expansion step is taken before the loop can stop. -/
theorem c2_loop_stops_on_strict_excess (env : ExternEnv) (config : CexDexTradeConfig)
    (pair : Pair) (vol : ℚ) (block_timestamp : ℕ) (walker : PairTradeWalker)
    (trade_volume_global : ℚ) (exchange_vxp : List (CexExchange × ExchangeAcc))
    (h : vol < trade_volume_global) :
    vwapLoop env config pair vol block_timestamp walker trade_volume_global exchange_vxp
      = (trade_volume_global, exchange_vxp) := by
  unfold vwapLoop
  rw [if_neg (not_le.mpr h)]

theorem c2_loop_stops_on_strict_excess_witness :
    (5 : ℚ) < 6
    ∧ vwapLoop c2env c2cfg c2pair 5 1000000 c2walker0 6 [] = (6, []) :=
  ⟨by norm_num,
    c2_loop_stops_on_strict_excess c2env c2cfg c2pair 5 1000000 c2walker0 6 []
      (by norm_num)⟩

/-! ## Claim C6: `get_price` result characterisation -/

/-- The post-loop tail of `get_vwap_price` fails exactly on insufficient
volume without bypass, or on zero accumulated volume. -/
theorem vwapFinish_eq_none_iff (pair : Pair) (vol : ℚ) (bypass_vol : Bool)
    (res : ℚ × List (CexExchange × ExchangeAcc)) :
    vwapFinish pair vol bypass_vol res = none
      ↔ (res.1 < vol ∧ bypass_vol = false) ∨ res.1 = 0 := by
  unfold vwapFinish
  split_ifs with h1 h2 <;> simp_all

/-- C6: `get_price` returns `Some(default)` on identity pairs; for a
non-identity pair it returns `None` exactly when both the direct and the
via-intermediary pricing fail; the direct pricing `get_vwap_price` fails
exactly when no trades exist in either orientation of the pair, or the
accumulated volume stays below the requested volume without `bypass_vol`, or
the accumulated volume is zero (so zero volume yields `None` even with
`bypass_vol = true`). -/
theorem c6_get_price_characterisation (self : TimeWindowTrades) (env : ExternEnv)
    (config : CexDexTradeConfig) (exchanges : List CexExchange) (pair : Pair)
    (vol : ℚ) (ts : ℕ) (bypass_vol : Bool) :
    (∀ a : Address, self.get_price env config exchanges ⟨a, a⟩ vol ts bypass_vol
        = some WindowExchangePrice.default)
    ∧ (self.get_price env config exchanges pair vol ts bypass_vol = none
        ↔ pair.fst ≠ pair.snd
          ∧ self.get_vwap_price env config exchanges pair vol ts bypass_vol = none
          ∧ self.get_vwap_price_via_intermediary env config exchanges pair vol ts
              bypass_vol = none)
    ∧ (self.get_trades exchanges pair = none
        → self.get_vwap_price env config exchanges pair vol ts bypass_vol = none)
    ∧ (∀ td r vxp, self.get_trades exchanges pair = some td
        → vwapLoop env config pair vol ts
            (PairTradeWalker.new td.trades td.indices (ts - START_PRE_TIME_US)
              (ts + START_POST_TIME_US)) 0 [] = (r, vxp)
        → (self.get_vwap_price env config exchanges pair vol ts bypass_vol = none
            ↔ (r < vol ∧ bypass_vol = false) ∨ r = 0))
    ∧ (self.get_trades exchanges pair = none
        ↔ ((self.query_trades exchanges pair).2.map (fun x => x.2.length)).sum = 0
          ∧ ((self.query_trades exchanges pair.flip).2.map (fun x => x.2.length)).sum
              = 0) := by
  refine ⟨?_, ?_, ?_, ?_, ?_⟩
  · intro a
    simp [TimeWindowTrades.get_price]
  · by_cases hp : pair.fst = pair.snd
    · simp [TimeWindowTrades.get_price, hp]
    · cases hv : self.get_vwap_price env config exchanges pair vol ts bypass_vol with
      | none => simp [TimeWindowTrades.get_price, hp, hv]
      | some r => simp [TimeWindowTrades.get_price, hp, hv]
  · intro hgt
    simp [TimeWindowTrades.get_vwap_price, hgt]
  · intro td r vxp hgt hloop
    have h1 : self.get_vwap_price env config exchanges pair vol ts bypass_vol
        = vwapFinish pair vol bypass_vol (vwapLoop env config pair vol ts
          (PairTradeWalker.new td.trades td.indices (ts - START_PRE_TIME_US)
            (ts + START_POST_TIME_US)) 0 []) := by
      simp only [TimeWindowTrades.get_vwap_price, hgt]
    rw [h1, hloop, vwapFinish_eq_none_iff]
  · simp only [TimeWindowTrades.get_trades]
    split_ifs with h1 h2 <;> simp_all

def c6emptyTw : TimeWindowTrades := { trades := [], intermediaries := [] }

def c6td : TradeData :=
  { indices := [(CexExchange.Binance, (0, 1))]
    trades := [(CexExchange.Binance, [c2trade1, c2trade2])]
    direction := Direction.Sell }

theorem c6_get_price_characterisation_witness :
    c6emptyTw.get_vwap_price c2env c2cfg [CexExchange.Binance] c2pair 5 1000000 false = none
    ∧ (c2tw.get_vwap_price c2env c2cfg [CexExchange.Binance] c2pair 5 1000000 false = none
        ↔ ((10 : ℚ) < 5 ∧ false = false) ∨ (10 : ℚ) = 0) :=
  ⟨(c6_get_price_characterisation c6emptyTw c2env c2cfg [CexExchange.Binance] c2pair 5
      1000000 false).2.2.1
    (by simp [c6emptyTw, TimeWindowTrades.get_trades, TimeWindowTrades.query_trades]),
   (c6_get_price_characterisation c2tw c2env c2cfg [CexExchange.Binance] c2pair 5
      1000000 false).2.2.2.1 c6td 10
    [(CexExchange.Binance, ⟨50, 50, 10, 10, 950000, 1060000⟩)]
    (by norm_num [c2tw, c2pair, c2trade1, c2trade2, c6td, TimeWindowTrades.get_trades,
      TimeWindowTrades.query_trades, alookup, List.filterMap_cons, Pair.flip,
      List.cons_ne_nil])
    (by
      have hw : PairTradeWalker.new c6td.trades c6td.indices
          (1000000 - START_PRE_TIME_US) (1000000 + START_POST_TIME_US) = c2walker0 := by
        norm_num [c6td, c2walker0, PairTradeWalker.new, START_PRE_TIME_US,
          START_POST_TIME_US]
      rw [hw, c2_loop_eval])⟩

/-! ## Claim C7: via-intermediary pricing -/

theorem maxByKeyLast_go_spec {α β : Type} [LinearOrder β] (key : α → β) :
    ∀ (l : List α) (acc : Option α) (r : α),
      l.foldl (fun acc x =>
        match acc with
        | none => some x
        | some a => if key a ≤ key x then some x else some a) acc = some r →
      (acc = some r ∨ r ∈ l)
      ∧ (∀ x ∈ l, key x ≤ key r)
      ∧ (∀ a, acc = some a → key a ≤ key r) := by
  intro l
  induction l with
  | nil =>
    intro acc r h
    simp only [List.foldl_nil] at h
    exact ⟨Or.inl h, by simp, fun a ha => by rw [ha] at h; cases h; exact le_refl _⟩
  | cons x l ih =>
    intro acc r h
    simp only [List.foldl_cons] at h
    obtain ⟨h1, h2, h3⟩ := ih _ r h
    have hstep : ∀ a, acc = some a →
        ((if key a ≤ key x then some x else some a) = some x
          ∨ (if key a ≤ key x then some x else some a) = some a) := by
      intro a _
      by_cases hk : key a ≤ key x <;> simp [hk]
    refine ⟨?_, ?_, ?_⟩
    · rcases h1 with h1 | h1
      · cases acc with
        | none =>
          simp only at h1
          cases h1
          exact Or.inr (List.mem_cons_self x l)
        | some a =>
          simp only at h1
          by_cases hk : key a ≤ key x
          · rw [if_pos hk] at h1
            cases h1
            exact Or.inr (List.mem_cons_self x l)
          · rw [if_neg hk] at h1
            exact Or.inl h1
      · exact Or.inr (List.mem_cons_of_mem x h1)
    · intro y hy
      rcases List.mem_cons.mp hy with hxy | hy
      · subst hxy
        cases acc with
        | none => exact h3 y rfl
        | some a =>
          by_cases hk : key a ≤ key y
          · exact h3 y (by simp [hk])
          · exact le_trans (le_of_lt (not_le.mp hk)) (h3 a (by simp [hk]))
      · exact h2 y hy
    · intro a ha
      subst ha
      by_cases hk : key a ≤ key x
      · exact le_trans hk (h3 x (by simp [hk]))
      · exact h3 a (by simp [hk])

theorem maxByKeyLast_mem {α β : Type} [LinearOrder β] (key : α → β) (l : List α) (r : α)
    (h : maxByKeyLast key l = some r) : r ∈ l := by
  rcases (maxByKeyLast_go_spec key l none r h).1 with h1 | h1
  · exact absurd h1 (by simp)
  · exact h1

theorem maxByKeyLast_is_max {α β : Type} [LinearOrder β] (key : α → β) (l : List α)
    (r : α) (h : maxByKeyLast key l = some r) : ∀ x ∈ l, key x ≤ key r :=
  (maxByKeyLast_go_spec key l none r h).2.1

theorem maxByKeyLast_go_isSome {α β : Type} [LinearOrder β] (key : α → β) :
    ∀ (l : List α) (a : α),
      (l.foldl (fun acc x =>
        match acc with
        | none => some x
        | some a => if key a ≤ key x then some x else some a) (some a)).isSome := by
  intro l
  induction l with
  | nil => intro a; rfl
  | cons x l ih =>
    intro a
    simp only [List.foldl_cons]
    by_cases hk : key a ≤ key x
    · rw [if_pos hk]; exact ih x
    · rw [if_neg hk]; exact ih a

theorem maxByKeyLast_eq_none_iff {α β : Type} [LinearOrder β] (key : α → β)
    (l : List α) : maxByKeyLast key l = none ↔ l = [] := by
  cases l with
  | nil => simp [maxByKeyLast]
  | cons x l =>
    simp only [maxByKeyLast, List.foldl_cons]
    constructor
    · intro h
      have := maxByKeyLast_go_isSome key l x
      rw [h] at this
      cases this
    · intro h
      cases h

/-- C7 (amended): `get_vwap_price_via_intermediary` prices leg 1 `(A, X)` at
the requested volume and leg 2 `(X, B)` at `leg1.global.price_maker` times the
requested volume, bypasses the volume requirement of a leg when the CALLER
requested a bypass or the leg is exactly `(USDC, USDT)` / `(USDT, USDC)` (so
with `bypass_vol = false` exactly the stable legs are exempt), and returns a
successfully composed `leg1 · leg2` price whose `global.price_maker` is
maximal among all intermediaries that price successfully, or `None` exactly
when none succeeds. -/
theorem c7_via_intermediary_amended (self : TimeWindowTrades) (env : ExternEnv)
    (config : CexDexTradeConfig) (exchanges : List CexExchange) (pair : Pair)
    (vol : ℚ) (ts : ℕ) (bypass_vol : Bool) :
    (∀ X : Address, self.intermediaryPrice env config exchanges pair vol ts bypass_vol X
      = match self.get_vwap_price env config exchanges ⟨pair.fst, X⟩ vol ts
            (bypass_vol || decide ((pair.fst = USDC_ADDRESS ∧ X = USDT_ADDRESS)
              ∨ (pair.fst = USDT_ADDRESS ∧ X = USDC_ADDRESS))) with
        | none => none
        | some first_leg =>
          match self.get_vwap_price env config exchanges ⟨X, pair.snd⟩
              (first_leg.global.price_maker * vol) ts
              (bypass_vol || decide ((X = USDT_ADDRESS ∧ pair.snd = USDC_ADDRESS)
                ∨ (X = USDC_ADDRESS ∧ pair.snd = USDT_ADDRESS))) with
          | none => none
          | some second_leg => some (first_leg.mul second_leg))
    ∧ (self.get_vwap_price_via_intermediary env config exchanges pair vol ts bypass_vol
          = none
        ↔ self.intermediaries.filterMap
            (self.intermediaryPrice env config exchanges pair vol ts bypass_vol) = [])
    ∧ (∀ p, self.get_vwap_price_via_intermediary env config exchanges pair vol ts
          bypass_vol = some p
        → p ∈ self.intermediaries.filterMap
            (self.intermediaryPrice env config exchanges pair vol ts bypass_vol))
    ∧ (∀ p q, self.get_vwap_price_via_intermediary env config exchanges pair vol ts
          bypass_vol = some p
        → q ∈ self.intermediaries.filterMap
            (self.intermediaryPrice env config exchanges pair vol ts bypass_vol)
        → q.global.price_maker ≤ p.global.price_maker) := by
  refine ⟨fun X => rfl, ?_, ?_, ?_⟩
  · exact maxByKeyLast_eq_none_iff _ _
  · intro p hp
    exact maxByKeyLast_mem _ _ p hp
  · intro p q hp hq
    exact maxByKeyLast_is_max _ _ p hp q hq

/-- C7 concrete store: the pair `(10, 20)` is only priceable through the
intermediary `50`; each leg has a single trade of amount 2, far below the
requested volume 100. -/
def c7cfg : CexDexTradeConfig := ⟨50000, 50000⟩

def c7t1 : CexTrades := ⟨CexExchange.Binance, 1000000, 3, 2⟩

def c7t2 : CexTrades := ⟨CexExchange.Binance, 1000000, 7, 2⟩

def c7tw : TimeWindowTrades :=
  { trades := [(CexExchange.Binance,
      [(⟨10, 50⟩, (1, [c7t1])), (⟨50, 20⟩, (1, [c7t2]))])]
    intermediaries := [50] }

def c7p1 : WindowExchangePrice :=
  { exchange_price_with_volume_direct := [(CexExchange.Binance, ⟨3, 3, 2, 950000, 1050000⟩)]
    pairs := [⟨10, 50⟩]
    global := ⟨3, 3, 2, 950000, 1050000⟩ }

def c7p2 : WindowExchangePrice :=
  { exchange_price_with_volume_direct := [(CexExchange.Binance, ⟨7, 7, 2, 950000, 1050000⟩)]
    pairs := [⟨50, 20⟩]
    global := ⟨7, 7, 2, 950000, 1050000⟩ }

def c7price : WindowExchangePrice :=
  { exchange_price_with_volume_direct := [(CexExchange.Binance, ⟨21, 21, 2, 950000, 1050000⟩)]
    pairs := [⟨10, 50⟩, ⟨50, 20⟩]
    global := ⟨21, 21, 2, 950000, 1050000⟩ }

theorem c7_loop1_eval (vol : ℚ) (h : (2 : ℚ) ≤ vol) :
    vwapLoop c2env c7cfg ⟨10, 50⟩ vol 1000000
      (PairTradeWalker.new [(CexExchange.Binance, [c7t1])] [(CexExchange.Binance, (0, 1))]
        950000 1050000) 0 []
    = (2, [(CexExchange.Binance, ⟨6, 6, 2, 2, 950000, 1050000⟩)]) := by
  unfold vwapLoop
  rw [if_pos (by linarith : (0 : ℚ) ≤ vol)]
  norm_num [c2env, c7cfg, c7t1, PairTradeWalker.new, PairTradeWalker.get_trades_for_window,
    PairTradeWalker.newTrades, PairTradeWalker.get_min_time_delta,
    PairTradeWalker.get_max_time_delta, processTrade, updateAcc, ExchangeAcc.zero]

theorem c7_loop2_eval (vol : ℚ) (h : (2 : ℚ) ≤ vol) :
    vwapLoop c2env c7cfg ⟨50, 20⟩ vol 1000000
      (PairTradeWalker.new [(CexExchange.Binance, [c7t2])] [(CexExchange.Binance, (0, 1))]
        950000 1050000) 0 []
    = (2, [(CexExchange.Binance, ⟨14, 14, 2, 2, 950000, 1050000⟩)]) := by
  unfold vwapLoop
  rw [if_pos (by linarith : (0 : ℚ) ≤ vol)]
  norm_num [c2env, c7cfg, c7t2, PairTradeWalker.new, PairTradeWalker.get_trades_for_window,
    PairTradeWalker.newTrades, PairTradeWalker.get_min_time_delta,
    PairTradeWalker.get_max_time_delta, processTrade, updateAcc, ExchangeAcc.zero]

theorem c7_leg1_eval (bypass_vol : Bool) :
    c7tw.get_vwap_price c2env c7cfg [CexExchange.Binance] ⟨10, 50⟩ 100 1000000 bypass_vol
      = if bypass_vol then some c7p1 else none := by
  have hgt : c7tw.get_trades [CexExchange.Binance] ⟨10, 50⟩
      = some { indices := [(CexExchange.Binance, (0, 1))]
               trades := [(CexExchange.Binance, [c7t1])]
               direction := Direction.Sell } := by
    norm_num [c7tw, c7t1, c7t2, TimeWindowTrades.get_trades, TimeWindowTrades.query_trades,
      alookup, List.filterMap_cons, Pair.flip, List.cons_ne_nil]
  have hw : PairTradeWalker.new [(CexExchange.Binance, [c7t1])]
      [(CexExchange.Binance, (0, 1))] (1000000 - START_PRE_TIME_US)
      (1000000 + START_POST_TIME_US)
      = PairTradeWalker.new [(CexExchange.Binance, [c7t1])] [(CexExchange.Binance, (0, 1))]
        950000 1050000 := by
    norm_num [START_PRE_TIME_US, START_POST_TIME_US]
  simp only [TimeWindowTrades.get_vwap_price, hgt, hw, c7_loop1_eval 100 (by norm_num)]
  cases bypass_vol with
  | false => norm_num [vwapFinish]
  | true =>
    norm_num [vwapFinish, aggStep, U64_MAX, c7p1]

theorem c7_leg2_eval (bypass_vol : Bool) :
    c7tw.get_vwap_price c2env c7cfg [CexExchange.Binance] ⟨50, 20⟩ 300 1000000 bypass_vol
      = if bypass_vol then some c7p2 else none := by
  have hgt : c7tw.get_trades [CexExchange.Binance] ⟨50, 20⟩
      = some { indices := [(CexExchange.Binance, (0, 1))]
               trades := [(CexExchange.Binance, [c7t2])]
               direction := Direction.Sell } := by
    norm_num [c7tw, c7t1, c7t2, TimeWindowTrades.get_trades, TimeWindowTrades.query_trades,
      alookup, List.filterMap_cons, Pair.flip, List.cons_ne_nil]
  have hw : PairTradeWalker.new [(CexExchange.Binance, [c7t2])]
      [(CexExchange.Binance, (0, 1))] (1000000 - START_PRE_TIME_US)
      (1000000 + START_POST_TIME_US)
      = PairTradeWalker.new [(CexExchange.Binance, [c7t2])] [(CexExchange.Binance, (0, 1))]
        950000 1050000 := by
    norm_num [START_PRE_TIME_US, START_POST_TIME_US]
  simp only [TimeWindowTrades.get_vwap_price, hgt, hw, c7_loop2_eval 300 (by norm_num)]
  cases bypass_vol with
  | false => norm_num [vwapFinish]
  | true =>
    norm_num [vwapFinish, aggStep, U64_MAX, c7p2]

theorem c7_via_eval :
    c7tw.get_vwap_price_via_intermediary c2env c7cfg [CexExchange.Binance] ⟨10, 20⟩ 100
      1000000 true = some c7price := by
  have h1 : c7tw.get_vwap_price c2env c7cfg [CexExchange.Binance] ⟨10, 50⟩ 100 1000000 true
      = some c7p1 := by simpa using c7_leg1_eval true
  have h2 : c7tw.get_vwap_price c2env c7cfg [CexExchange.Binance] ⟨50, 20⟩ 300 1000000 true
      = some c7p2 := by simpa using c7_leg2_eval true
  have hcand : c7tw.intermediaryPrice c2env c7cfg [CexExchange.Binance] ⟨10, 20⟩ 100
      1000000 true 50 = some c7price := by
    simp only [TimeWindowTrades.intermediaryPrice, Bool.true_or]
    norm_num [h1, h2, c7p1, c7p2, c7price, WindowExchangePrice.mul, ExchangePath.join,
      lookupEx, List.filterMap_cons, List.filterMap_nil]
  simp only [TimeWindowTrades.get_vwap_price_via_intermediary]
  rw [show c7tw.intermediaries = [50] from rfl, List.filterMap_cons, hcand,
    List.filterMap_nil]
  rfl

/-- C7 counterexample: with the caller's `bypass_vol = true`, the non-stable
leg `(10, 50)` — whose own volume requirement is NOT met (pricing it with
`bypass_vol = false` yields `None`) — is nevertheless priced, and the
via-intermediary pricing succeeds.  So the volume requirement of a leg is not
bypassed "exactly when that leg is `(USDC, USDT)` or `(USDT, USDC)`": the
caller's `bypass_vol` flag also bypasses it. -/
theorem c7_counterexample :
    c7tw.get_vwap_price c2env c7cfg [CexExchange.Binance] ⟨10, 50⟩ 100 1000000 false = none
    ∧ ¬((10 = USDC_ADDRESS ∧ 50 = USDT_ADDRESS) ∨ (10 = USDT_ADDRESS ∧ 50 = USDC_ADDRESS))
    ∧ ¬((50 = USDT_ADDRESS ∧ 20 = USDC_ADDRESS) ∨ (50 = USDC_ADDRESS ∧ 20 = USDT_ADDRESS))
    ∧ c7tw.get_vwap_price_via_intermediary c2env c7cfg [CexExchange.Binance] ⟨10, 20⟩ 100
        1000000 true = some c7price := by
  refine ⟨?_, ?_, ?_, c7_via_eval⟩
  · simpa using c7_leg1_eval false
  · norm_num [USDC_ADDRESS, USDT_ADDRESS]
  · norm_num [USDC_ADDRESS, USDT_ADDRESS]

theorem c7_via_intermediary_amended_witness :
    c7price ∈ c7tw.intermediaries.filterMap
      (c7tw.intermediaryPrice c2env c7cfg [CexExchange.Binance] ⟨10, 20⟩ 100 1000000 true) :=
  (c7_via_intermediary_amended c7tw c2env c7cfg [CexExchange.Binance] ⟨10, 20⟩ 100 1000000
    true).2.2.1 c7price c7_via_eval

/-! ## Shared bundle types (mev/bundle/header.rs, tree module) -/

/-- `GasDetails` (tree module): the gas fields per the spec's `TxInfo`. -/
structure GasDetails where
  gas_used : ℕ
  priority_fee : ℕ
  effective_gas_price : ℕ
  coinbase_transfer : Option ℕ
deriving DecidableEq, Repr

/-- Modelled from the spec: `GasDetails::gas_paid()` lives in the tree module,
not among the sampled sources; the gas actually paid is the gas used at the
effective price.  The checked claims only pass its value onward. -/
def GasDetails.gas_paid (g : GasDetails) : ℕ :=
  g.gas_used * g.effective_gas_price

/-- `MevType` tags (mev module), restricted to the variants the embedded
inspectors emit. -/
inductive MevType where
  | CexDex
  | AtomicArb
deriving DecidableEq, Repr

/-- `TokenProfit` (header.rs lines 54–59); the `f64` fields are `ℚ` here. -/
structure TokenProfit where
  profit_collector : Address
  token : Address
  amount : ℚ
  usd_value : ℚ
deriving DecidableEq, Repr

/-- `TokenProfits` (header.rs lines 47–49). -/
structure TokenProfits where
  profits : List TokenProfit
deriving DecidableEq, Repr

/-- `BundleHeader` (header.rs lines 26–41).  `profit_usd` and `bribe_usd` are
`f64` in the source; the model keeps them as `ℚ` (`to_float` is the identity
of the model), which is faithful for the dataflow the claims are about. -/
structure BundleHeader where
  block_number : ℕ
  tx_index : ℕ
  tx_hash : ℕ
  eoa : Address
  mev_contract : Address
  profit_usd : ℚ
  token_profits : TokenProfits
  bribe_usd : ℚ
  mev_type : MevType
deriving DecidableEq, Repr

/-! ## CEX/DEX inspector (cex_dex.rs) -/

namespace CexDexIns

/-- `NormalizedSwap` as used by cex_dex.rs: token fields are addresses and the
amounts are unsigned (`U256`) integers. -/
structure NormalizedSwap where
  token_in : Address
  token_out : Address
  amount_in : ℕ
  amount_out : ℕ
deriving DecidableEq, Repr

/-- `Actions` as observed by the CEX/DEX inspector: the collected nodes are
swaps; the root head can be an unclassified call (carrying the result of its
`is_cex_dex_call()`), a swap, or anything else. -/
inductive Actions where
  | Swap (s : NormalizedSwap)
  | Unclassified (is_cex_dex_call : Bool)
  | Other
deriving DecidableEq, Repr

def Actions.is_unclassified : Actions → Bool
  | .Unclassified _ => true
  | _ => false

/-- `Actions::force_swap_ref` panics on a non-swap in the source; the callers
embedded here only ever pass swap actions (the tree collection predicate is
`node.data.is_swap()`), so the non-swap arm carries a junk swap. -/
def Actions.force_swap_ref : Actions → NormalizedSwap
  | .Swap s => s
  | _ => ⟨0, 0, 0, 0⟩

/-- `ToScaledRational`: a `U256` amount scaled down by the token decimals. -/
def toScaledRational (amount : ℕ) (decimals : ℕ) : ℚ :=
  (amount : ℚ) / 10 ^ decimals

/-- Modelled from the spec: `Pair::ordered()` (pair.rs, not among the sampled
sources) puts the numerically smaller address first. -/
def Pair.ordered (p : Pair) : Pair :=
  if p.fst ≤ p.snd then p else p.flip

/-- The store's `try_get_token_decimals`: `Ok(Some(d))` is `some d`; both
`Err(_)` and `Ok(None)` make every sampled call site take its missing-value
path, so they are merged into `none`. -/
abbrev DecimalsStore : Type := Address → Option ℕ

/-- The CEX quote snapshot view used by cex_dex.rs: `get_quote` /
`get_quote_via_intermediary` (CexPriceMap methods, defined outside the sampled
sources, taken as data) return a quote whose `price` is the `(bid, ask)`
pair. -/
structure CexQuotesView where
  get_quote : Pair → CexExchange → Option (ℚ × ℚ)
  get_quote_via_intermediary : Pair → CexExchange → Option (ℚ × ℚ)

/-- The metadata fields consumed by the CEX/DEX inspector;
`get_gas_price_usd` is an external method of the metadata, taken as data. -/
structure MetadataCombined where
  block_num : ℕ
  eth_prices : ℚ
  cex_quotes : CexQuotesView
  get_gas_price_usd : ℕ → ℚ

/-- `Root` fields the inspector reads: `get_block_position()`, `gas_details`,
`head.address` (eoa), `head.data` and its `get_to_address()` (external method,
taken as a field). -/
structure Root where
  tx_hash : ℕ
  head_data : Actions
  head_address : Address
  head_to_address : Address
  gas_details : GasDetails
  block_position : ℕ

/-- `CexDexInspector::dex_price_post_fee` (lines 247–262): `None` (with a log)
when either token's decimals are missing, else scaled `amount_in /
amount_out`. -/
def dex_price_post_fee (db : DecimalsStore) (swap : NormalizedSwap) : Option ℚ :=
  match db swap.token_in with
  | none => none
  | some decimals_in =>
    match db swap.token_out with
    | none => none
    | some decimals_out =>
      some (toScaledRational swap.amount_in decimals_in
        / toScaledRational swap.amount_out decimals_out)

/-- `CexDexInspector::profit_classifier` (lines 162–200).  The source
`unwrap().unwrap()`s the decimals of `swap.token_out`; the `none` result marks
that panic.  `fees ex` is the external `CexExchange::fees()` constant pair
(maker, taker). -/
def profit_classifier (fees : CexExchange → ℚ × ℚ) (db : DecimalsStore)
    (swap : NormalizedSwap) (dex_price : ℚ)
    (exchange_cex_price : CexExchange × ℚ × Bool) : Option (CexExchange × ℚ) :=
  let delta_price := exchange_cex_price.2.1 - dex_price
  match db swap.token_out with
  | none => none
  | some decimals_in =>
    let sell_amount := toScaledRational swap.amount_out decimals_in
    if exchange_cex_price.2.2 then
      some (exchange_cex_price.1,
        delta_price * sell_amount - sell_amount * (fees exchange_cex_price.1).2)
    else
      some (exchange_cex_price.1,
        delta_price * sell_amount - sell_amount * (fees exchange_cex_price.1).2 * 2)

/-- `CexDexInspector::cex_quotes_for_swap` (lines 208–245): per configured
exchange, the direct quote of the ordered pair (marked `true`), else the quote
via an intermediary (marked `false`); `None` when no exchange quotes. -/
def cex_quotes_for_swap (cex_exchanges : List CexExchange) (quotes : CexQuotesView)
    (swap : NormalizedSwap) : Option (List (CexExchange × ℚ × Bool)) :=
  let pair := Pair.ordered ⟨swap.token_in, swap.token_out⟩
  let qs := cex_exchanges.filterMap (fun exchange =>
    match quotes.get_quote pair exchange with
    | some cex_quote => some (exchange, cex_quote.1, true)
    | none =>
      match quotes.get_quote_via_intermediary pair exchange with
      | some cex_quote => some (exchange, cex_quote.1, false)
      | none => none)
  if qs.isEmpty then none else some qs

/-- `CexDexInspector::detect_cex_dex_opportunity` (lines 144–160): quotes
first, then the DEX price (skipping the swap when either is unavailable), then
the per-exchange profit classification.  The element type keeps the
`profit_classifier` panic marker. -/
def detect_cex_dex_opportunity (fees : CexExchange → ℚ × ℚ) (db : DecimalsStore)
    (cex_exchanges : List CexExchange) (quotes : CexQuotesView)
    (swap : NormalizedSwap) : Option (List (Option (CexExchange × ℚ))) :=
  match cex_quotes_for_swap cex_exchanges quotes swap with
  | none => none
  | some cex_prices =>
    match dex_price_post_fee db swap with
    | none => none
    | some dex_price =>
      some (cex_prices.map (fun q => profit_classifier fees db swap dex_price q))

/-- The `swaps_with_profit_by_exchange` collection of `process_swaps` (lines
76–87): swaps whose opportunity detection fails are skipped.  The
`filterMap id` extracts the classifier results; by the no-panic property the
panic marker never occurs in a `some` detection result, so nothing is
dropped. -/
def swaps_with_profit_by_exchange (fees : CexExchange → ℚ × ℚ) (db : DecimalsStore)
    (cex_exchanges : List CexExchange) (quotes : CexQuotesView)
    (swaps : List Actions) : List (NormalizedSwap × List (CexExchange × ℚ)) :=
  swaps.filterMap (fun action =>
    let swap := action.force_swap_ref
    match detect_cex_dex_opportunity fees db cex_exchanges quotes swap with
    | none => none
    | some ops => some (swap, ops.filterMap id))

/-- `PossibleCexDex` (lines 342–348). -/
structure PossibleCexDex where
  swaps : List NormalizedSwap
  exchanges : List CexExchange
  profits_pre_gas : List ℚ
  gas_details : GasDetails
  pnl : ℚ
deriving DecidableEq, Repr

/-- The `max_profit_sequence` of `gas_accounting` (lines 272–281): per swap,
Rust's `max_by` on the profit — which keeps the LAST maximal element on
ties. -/
def max_profit_sequence
    (swaps_with : List (NormalizedSwap × List (CexExchange × ℚ))) :
    List (NormalizedSwap × CexExchange × ℚ) :=
  swaps_with.filterMap (fun e =>
    (maxByKeyLast (fun p => p.2) e.2).map (fun m => (e.1, m.1, m.2)))

/-- `CexDexInspector::gas_accounting` (lines 264–306): sum the per-swap
maximal profits, subtract `gas_paid / 10^18 · eth_price`. -/
def gas_accounting (swaps_with : List (NormalizedSwap × List (CexExchange × ℚ)))
    (gas_details : GasDetails) (eth_price : ℚ) : PossibleCexDex :=
  let seq := max_profit_sequence swaps_with
  let total_arb_pre_gas : ℚ := (seq.map (fun x => x.2.2)).sum
  let gas_cost : ℚ := (gas_details.gas_paid : ℚ) / 10 ^ 18 * eth_price
  { swaps := seq.map (fun x => x.1)
    exchanges := seq.map (fun x => x.2.1)
    profits_pre_gas := seq.map (fun x => x.2.2)
    gas_details := gas_details
    pnl := total_arb_pre_gas - gas_cost }

/-- `PriceKind` (interleaved price tags of the payload). -/
inductive PriceKind where
  | Dex
  | Cex
deriving DecidableEq, Repr

/-- The `CexDex` bundle payload (mev module shape as built in lines
352–373). -/
structure CexDex where
  tx_hash : ℕ
  gas_details : GasDetails
  swaps : List NormalizedSwap
  prices_kind : List PriceKind
  prices_address : List Address
  prices_price : List ℚ
deriving DecidableEq, Repr

/-- `BundleData` as emitted by this inspector. -/
inductive BundleData where
  | CexDex (c : CexDex)
deriving DecidableEq, Repr

/-- `Bundle` (header + payload). -/
structure Bundle where
  header : BundleHeader
  data : BundleData
deriving DecidableEq, Repr

/-- `PossibleCexDex::build_bundle_type` (lines 352–373): payload with
interleaved `[Dex, Cex]` kinds, `[token_in, token_out]` addresses and the
duplicated per-swap profits (floats in the source, `ℚ` here). -/
def PossibleCexDex.build_bundle_type (self : PossibleCexDex) (root : Root) : BundleData :=
  BundleData.CexDex
    { tx_hash := root.tx_hash
      gas_details := self.gas_details
      swaps := self.swaps
      prices_kind := self.swaps.flatMap (fun _ => [PriceKind.Dex, PriceKind.Cex])
      prices_address := self.swaps.flatMap (fun s => [s.token_in, s.token_out])
      prices_price := self.profits_pre_gas.flatMap (fun profit => [profit, profit]) }

/-- `CexDexInspector::filter_possible_cex_dex` (lines 308–331): emit iff
(`pnl > 0` and the head is unclassified) or (a coinbase transfer is present
and the head is unclassified) or the head is a known cex-dex contract call. -/
def filter_possible_cex_dex (possible_cex_dex : PossibleCexDex) (root : Root) :
    Option BundleData :=
  let basic_condition :=
    (decide (0 < possible_cex_dex.pnl) && root.head_data.is_unclassified)
    || (possible_cex_dex.gas_details.coinbase_transfer.isSome
        && root.head_data.is_unclassified)
  let is_know_cex_dex_contract :=
    match root.head_data with
    | .Unclassified data => data
    | _ => false
  if basic_condition || is_know_cex_dex_contract then
    some (possible_cex_dex.build_bundle_type root)
  else none

/-- The shared-inspector-utils helpers `process_swaps` calls
(`calculate_token_deltas`, `usd_delta_by_address`, `profit_collectors` and the
quote asset), defined in shared_utils.rs outside the sampled sources, taken as
data.  Deltas are an association list address → (token → signed delta). -/
structure SharedUtilsEnv where
  quote : Address
  calculate_token_deltas :
    List (List Actions) → List (Address × List (Address × ℚ))
  usd_delta_by_address :
    ℕ → List (Address × List (Address × ℚ)) → Bool → Option (List (Address × ℚ))
  profit_collectors : List (Address × ℚ) → List Address

/-- The `token_profits` construction of `process_swaps` (lines 102–125):
profit collectors joined back to their deltas, each token delta priced by the
Binance ask quote against the quote asset (`unwrap_or_default` supplies a zero
quote). -/
def token_profits_of (inner : SharedUtilsEnv) (metadata : MetadataCombined)
    (deltas : List (Address × List (Address × ℚ)))
    (mev_profit_collector : List Address) : TokenProfits :=
  { profits :=
      (mev_profit_collector.filterMap (fun address =>
        (alookup deltas address).map (fun d => (address, d)))).flatMap (fun ad =>
          ad.2.map (fun td =>
            { profit_collector := ad.1
              token := td.1
              amount := td.2
              usd_value :=
                ((metadata.cex_quotes.get_quote ⟨td.1, inner.quote⟩
                  CexExchange.Binance).getD (0, 0)).2 * td.2 })) }

/-- `CexDexInspector::process_swaps` (lines 65–142).  The swap list is the
tree collection of the tx's swap actions. -/
def process_swaps (fees : CexExchange → ℚ × ℚ) (db : DecimalsStore)
    (cex_exchanges : List CexExchange) (inner : SharedUtilsEnv) (root : Root)
    (metadata : MetadataCombined) (swaps : List Actions) : Option Bundle :=
  let tx_index := root.block_position
  let gas_details := root.gas_details
  let mev_contract := root.head_to_address
  let eoa := root.head_address
  let possible_cex_dex := gas_accounting
    (swaps_with_profit_by_exchange fees db cex_exchanges metadata.cex_quotes swaps)
    gas_details metadata.eth_prices
  match filter_possible_cex_dex possible_cex_dex root with
  | none => none
  | some cex_dex =>
    let gas_finalized := metadata.get_gas_price_usd gas_details.gas_paid
    let deltas := inner.calculate_token_deltas [swaps]
    match inner.usd_delta_by_address tx_index deltas true with
    | none => none
    | some addr_usd_deltas =>
      let mev_profit_collector := inner.profit_collectors addr_usd_deltas
      some
        { header :=
            { tx_index := tx_index
              tx_hash := root.tx_hash
              mev_contract := mev_contract
              eoa := eoa
              block_number := metadata.block_num
              mev_type := MevType.CexDex
              profit_usd := 0
              token_profits :=
                token_profits_of inner metadata deltas mev_profit_collector
              bribe_usd := gas_finalized }
          data := cex_dex }

/-! ### Claim C3: missing decimals are skipped, never a panic -/

theorem dex_price_post_fee_isSome (db : DecimalsStore) (swap : NormalizedSwap) (p : ℚ)
    (h : dex_price_post_fee db swap = some p) :
    (db swap.token_in).isSome = true ∧ (db swap.token_out).isSome = true := by
  cases h1 : db swap.token_in <;> cases h2 : db swap.token_out <;>
    simp_all [dex_price_post_fee]

/-- C3: when the decimals of either token of a swap are missing from the
store, opportunity detection returns `None` and the swap-collection loop of
`process_swaps` drops exactly that swap and continues with the rest; and the
`unwrap()` panic inside `profit_classifier` is unreachable — every classifier
result inside a successful detection is a proper value (the classifier is only
called after `dex_price_post_fee` proved both decimals present). -/
theorem c3_missing_decimals_skipped_no_panic (fees : CexExchange → ℚ × ℚ)
    (db : DecimalsStore) (cex_exchanges : List CexExchange) (quotes : CexQuotesView)
    (swap : NormalizedSwap) (rest : List Actions) :
    (db swap.token_in = none ∨ db swap.token_out = none
      → detect_cex_dex_opportunity fees db cex_exchanges quotes swap = none)
    ∧ (∀ l, detect_cex_dex_opportunity fees db cex_exchanges quotes swap = some l
        → ∀ x ∈ l, x.isSome = true)
    ∧ (detect_cex_dex_opportunity fees db cex_exchanges quotes swap = none
      → swaps_with_profit_by_exchange fees db cex_exchanges quotes
          (Actions.Swap swap :: rest)
        = swaps_with_profit_by_exchange fees db cex_exchanges quotes rest) := by
  refine ⟨?_, ?_, ?_⟩
  · intro h
    have hd : dex_price_post_fee db swap = none := by
      rcases h with h | h
      · simp [dex_price_post_fee, h]
      · cases h1 : db swap.token_in <;> simp [dex_price_post_fee, h1, h]
    unfold detect_cex_dex_opportunity
    cases hq : cex_quotes_for_swap cex_exchanges quotes swap <;> simp [hd]
  · intro l hl x hx
    unfold detect_cex_dex_opportunity at hl
    cases hq : cex_quotes_for_swap cex_exchanges quotes swap with
    | none => rw [hq] at hl; cases hl
    | some cex_prices =>
      rw [hq] at hl
      cases hd : dex_price_post_fee db swap with
      | none => rw [hd] at hl; cases hl
      | some dex_price =>
        rw [hd] at hl
        cases hl
        obtain ⟨q, _, hqx⟩ := List.mem_map.mp hx
        obtain ⟨-, hout⟩ := dex_price_post_fee_isSome db swap dex_price hd
        cases h2 : db swap.token_out with
        | none => rw [h2] at hout; cases hout
        | some d =>
          rw [← hqx]
          unfold profit_classifier
          rw [h2]
          by_cases hdir : q.2.2 <;> simp [hdir]
  · intro h
    simp [swaps_with_profit_by_exchange, List.filterMap_cons, Actions.force_swap_ref, h]

def c3db0 : DecimalsStore := fun _ => none

def c3db1 : DecimalsStore := fun _ => some 0

def c3quotes : CexQuotesView :=
  { get_quote := fun _ _ => some (1, 1), get_quote_via_intermediary := fun _ _ => none }

def c3fees : CexExchange → ℚ × ℚ := fun _ => (0, 0)

def c3swap : NormalizedSwap := ⟨1, 2, 3, 4⟩

theorem c3_missing_decimals_skipped_no_panic_witness :
    detect_cex_dex_opportunity c3fees c3db0 [CexExchange.Binance] c3quotes c3swap = none
    ∧ swaps_with_profit_by_exchange c3fees c3db0 [CexExchange.Binance] c3quotes
        [Actions.Swap c3swap]
      = swaps_with_profit_by_exchange c3fees c3db0 [CexExchange.Binance] c3quotes []
    ∧ (some (CexExchange.Binance, (1 : ℚ))).isSome = true :=
  ⟨(c3_missing_decimals_skipped_no_panic c3fees c3db0 [CexExchange.Binance] c3quotes
      c3swap []).1 (Or.inl rfl),
   (c3_missing_decimals_skipped_no_panic c3fees c3db0 [CexExchange.Binance] c3quotes
      c3swap []).2.2
     ((c3_missing_decimals_skipped_no_panic c3fees c3db0 [CexExchange.Binance] c3quotes
        c3swap []).1 (Or.inl rfl)),
   (c3_missing_decimals_skipped_no_panic c3fees c3db1 [CexExchange.Binance] c3quotes
      c3swap []).2.1 [some (CexExchange.Binance, 1)]
     (by norm_num [detect_cex_dex_opportunity, cex_quotes_for_swap, dex_price_post_fee,
       profit_classifier, toScaledRational, Pair.ordered, c3db1, c3quotes, c3fees, c3swap,
       List.filterMap_cons])
     (some (CexExchange.Binance, 1)) (by simp)⟩

/-! ### Claim C4: per-swap exchange selection in gas accounting -/

def c4swap : NormalizedSwap := ⟨100, 200, 1, 1⟩

def c4gd : GasDetails := ⟨0, 0, 0, none⟩

/-- C4 counterexample: on an exact profit tie between Binance and Coinbase
(candidates listed in that order, which is also the `CexExchange` natural
order), `gas_accounting` selects Coinbase — Rust `Iterator::max_by` keeps the
LAST maximal element — although Binance is the smaller exchange in the natural
order.  This falsifies "when two exchanges have exactly equal profit the one
chosen is the smaller in the CexExchange natural order". -/
theorem c4_counterexample :
    (gas_accounting [(c4swap, [(CexExchange.Binance, 5), (CexExchange.Coinbase, 5)])]
      c4gd 0).exchanges = [CexExchange.Coinbase]
    ∧ CexExchange.Binance.natOrder < CexExchange.Coinbase.natOrder := by
  constructor
  · norm_num [gas_accounting, max_profit_sequence, maxByKeyLast, List.filterMap_cons]
  · norm_num [CexExchange.natOrder]

/-- C4 (amended): per swap, `gas_accounting` selects a candidate
`(exchange, profit)` pair that is present among the candidates and whose
profit is maximal among all candidates for that swap; on exact profit ties the
LAST maximal candidate in quote order (the configured exchange order) is kept,
not the smaller exchange in the `CexExchange` natural order.  The output
fields list exactly the per-swap selections and `pnl` is their sum minus
`gas_paid / 10^18 · eth_price`. -/
theorem c4_gas_accounting_amended
    (swaps_with : List (NormalizedSwap × List (CexExchange × ℚ)))
    (gd : GasDetails) (eth_price : ℚ) :
    (∀ e ∈ swaps_with, ∀ ex profit,
      maxByKeyLast (fun p => p.2) e.2 = some (ex, profit)
      → (ex, profit) ∈ e.2 ∧ ∀ c ∈ e.2, c.2 ≤ profit)
    ∧ (gas_accounting swaps_with gd eth_price).exchanges
        = (max_profit_sequence swaps_with).map (fun x => x.2.1)
    ∧ (gas_accounting swaps_with gd eth_price).profits_pre_gas
        = (max_profit_sequence swaps_with).map (fun x => x.2.2)
    ∧ (gas_accounting swaps_with gd eth_price).pnl
        = ((max_profit_sequence swaps_with).map (fun x => x.2.2)).sum
          - (gd.gas_paid : ℚ) / 10 ^ 18 * eth_price := by
  refine ⟨?_, rfl, rfl, rfl⟩
  intro e _ ex profit hmax
  exact ⟨maxByKeyLast_mem _ e.2 (ex, profit) hmax,
    fun c hc => maxByKeyLast_is_max _ e.2 (ex, profit) hmax c hc⟩

theorem c4_gas_accounting_amended_witness :
    (CexExchange.Coinbase, (5 : ℚ)) ∈ [(CexExchange.Binance, (5 : ℚ)),
      (CexExchange.Coinbase, 5)]
    ∧ ∀ c ∈ [(CexExchange.Binance, (5 : ℚ)), (CexExchange.Coinbase, 5)], c.2 ≤ 5 :=
  (c4_gas_accounting_amended
      [(c4swap, [(CexExchange.Binance, 5), (CexExchange.Coinbase, 5)])] c4gd 0).1
    (c4swap, [(CexExchange.Binance, 5), (CexExchange.Coinbase, 5)])
    (List.mem_singleton.mpr rfl) CexExchange.Coinbase 5
    (by norm_num [maxByKeyLast])

/-! ### Claim C5: emitted header fields -/

/-- C5: every bundle the CEX/DEX inspector emits has `profit_usd = 0.0`
(the computed pnl never reaches the header) and `bribe_usd` equal to the USD
value of the transaction's gas paid. -/
theorem c5_emitted_header_fields (fees : CexExchange → ℚ × ℚ) (db : DecimalsStore)
    (cex_exchanges : List CexExchange) (inner : SharedUtilsEnv) (root : Root)
    (metadata : MetadataCombined) (swaps : List Actions) (b : Bundle)
    (h : process_swaps fees db cex_exchanges inner root metadata swaps = some b) :
    b.header.profit_usd = 0
    ∧ b.header.bribe_usd = metadata.get_gas_price_usd root.gas_details.gas_paid := by
  simp only [process_swaps] at h
  split at h
  · cases h
  · split at h
    · cases h
    · cases h
      exact ⟨rfl, rfl⟩

def c5gd : GasDetails := ⟨0, 0, 0, some 1⟩

def c5root : Root :=
  { tx_hash := 7, head_data := Actions.Unclassified false, head_address := 8
    head_to_address := 9, gas_details := c5gd, block_position := 3 }

def c5meta : MetadataCombined :=
  { block_num := 1, eth_prices := 0
    cex_quotes := { get_quote := fun _ _ => none, get_quote_via_intermediary := fun _ _ => none }
    get_gas_price_usd := fun _ => 42 }

def c5inner : SharedUtilsEnv :=
  { quote := 0, calculate_token_deltas := fun _ => []
    usd_delta_by_address := fun _ _ _ => some [], profit_collectors := fun _ => [] }

def c5bundle : Bundle :=
  { header :=
      { block_number := 1, tx_index := 3, tx_hash := 7, eoa := 8, mev_contract := 9
        profit_usd := 0, token_profits := ⟨[]⟩, bribe_usd := 42, mev_type := MevType.CexDex }
    data := BundleData.CexDex ⟨7, c5gd, [], [], [], []⟩ }

theorem c5_emitted_header_fields_witness :
    c5bundle.header.profit_usd = 0
    ∧ c5bundle.header.bribe_usd = c5meta.get_gas_price_usd c5root.gas_details.gas_paid :=
  c5_emitted_header_fields c3fees c3db0 [] c5inner c5root c5meta [] c5bundle
    (by norm_num [process_swaps, swaps_with_profit_by_exchange, gas_accounting,
      max_profit_sequence, filter_possible_cex_dex, PossibleCexDex.build_bundle_type,
      token_profits_of, GasDetails.gas_paid, Actions.is_unclassified, c5gd, c5root,
      c5meta, c5inner, c5bundle, c3db0, c3fees])

end CexDexIns

/-! ## Atomic-arb inspector (atomic_backrun.rs) -/

namespace AtomicIns

/-- The token view of atomic_backrun.rs's `NormalizedSwap`: the inspector only
reads `token_in.address` / `token_out.address`. -/
structure TokenInfo where
  address : Address
deriving DecidableEq, Repr

/-- `NormalizedSwap` as used by atomic_backrun.rs (the remaining source fields
are never read by this inspector). -/
structure NormalizedSwap where
  token_in : TokenInfo
  token_out : TokenInfo
  amount_in : ℕ
  amount_out : ℕ
deriving DecidableEq, Repr

/-- `Actions` as observed by the atomic-arb inspector: swaps, transfers,
flash loans carrying their child actions, and anything else. -/
inductive Actions where
  | Swap (s : NormalizedSwap)
  | Transfer
  | FlashLoan (child_actions : List Actions)
  | Other

def Actions.is_swap : Actions → Bool
  | .Swap _ => true
  | _ => false

def Actions.is_flash_loan : Actions → Bool
  | .FlashLoan _ => true
  | _ => false

/-- `Actions::force_swap` panics on a non-swap in the source; the embedded
callers filter on `is_swap` first, so the non-swap arm carries a junk swap. -/
def Actions.force_swap : Actions → NormalizedSwap
  | .Swap s => s
  | _ => ⟨⟨0⟩, ⟨0⟩, 0, 0⟩

/-- The flattened swap list used for shape classification (`process_swaps`
lines 63–77): swaps and flash loans, with the swap children pulled out of the
flash-loan wrappers. -/
def flatten_swaps (searcher_actions : List (List Actions)) : List NormalizedSwap :=
  (searcher_actions.flatten.filter
    (fun s => s.is_swap || s.is_flash_loan)).flatMap (fun s =>
      match s with
      | .Swap s => [s]
      | .FlashLoan f => (f.filter Actions.is_swap).map Actions.force_swap
      | _ => [])

/-- The swap list placed in the emitted payload (`process_swaps` lines
101–106): only the top-level swap actions. -/
def payload_swaps (searcher_actions : List (List Actions)) : List NormalizedSwap :=
  (searcher_actions.flatten.filter Actions.is_swap).map Actions.force_swap

/-- `AtomicArbitrage` (lines 205–209). -/
inductive AtomicArbitrage where
  | LongTail
  | Triangle
  | CrossPair
deriving DecidableEq, Repr

/-- The `for swap in swaps.iter().skip(1)` walk of `identify_arb_sequence`
(lines 190–197): `CrossPair` at the first broken link, else `Triangle`. -/
def arb_walk (last_out : Address) : List NormalizedSwap → AtomicArbitrage
  | [] => .Triangle
  | swap :: rest =>
    if swap.token_in.address ≠ last_out then .CrossPair
    else arb_walk swap.token_out.address rest

/-- `identify_arb_sequence` (lines 182–200).  The source `unwrap()`s the first
and last element; it is only called with at least three swaps, so the empty
arm is unreachable. -/
def identify_arb_sequence (swaps : List NormalizedSwap) : AtomicArbitrage :=
  match swaps with
  | [] => .Triangle
  | first :: rest =>
    let start_token := first.token_in.address
    let end_token := (rest.getLastD first).token_out.address
    if start_token ≠ end_token then .LongTail
    else arb_walk first.token_out.address rest

/-- `AtomicArbInspector::is_possible_arb` (lines 113–129). -/
def is_possible_arb (swaps : List NormalizedSwap) : Option AtomicArbitrage :=
  if swaps.length ≤ 1 then some .LongTail
  else if swaps.length = 2 then
    match swaps with
    | s0 :: s1 :: _ =>
      if s0.token_in.address = s1.token_out.address
          ∧ s0.token_out.address = s1.token_in.address
      then some .Triangle
      else some .CrossPair
    | _ => some .LongTail
  else some (identify_arb_sequence swaps)

/-- `TxInfo` fields the inspector reads. -/
structure TxInfo where
  tx_hash : ℕ
  tx_index : ℕ
  gas_details : GasDetails
deriving DecidableEq, Repr

/-- The metadata field the inspector reads; `get_gas_price_usd` is an external
method of the metadata, taken as data. -/
structure Metadata where
  get_gas_price_usd : ℕ → ℚ

/-- The shared-utils helpers `process_swaps` calls (`get_dex_revenue_usd` at
`PriceAt::Average` and `build_bundle_header`), defined in shared_utils.rs
outside the sampled sources, taken as data. -/
structure AtomicUtilsEnv where
  get_dex_revenue_usd : ℕ → List (List Actions) → Option ℚ
  build_bundle_header : TxInfo → ℚ → List (List Actions) → List GasDetails → BundleHeader

/-- The `AtomicArb` bundle payload (built in line 108). -/
structure AtomicArb where
  tx_hash : ℕ
  gas_details : GasDetails
  swaps : List NormalizedSwap
deriving DecidableEq, Repr

/-- `BundleData` as emitted by this inspector. -/
inductive BundleData where
  | AtomicArb (a : AtomicArb)
deriving DecidableEq, Repr

/-- `Bundle` (header + payload). -/
structure Bundle where
  header : BundleHeader
  data : BundleData
deriving DecidableEq, Repr

/-- `process_triangle_arb` (lines 131–154): revenue minus gas, rejecting
non-positive profit. -/
def process_triangle_arb (inner : AtomicUtilsEnv) (tx_info : TxInfo)
    (metadata : Metadata) (searcher_actions : List (List Actions)) : Option ℚ :=
  match inner.get_dex_revenue_usd tx_info.tx_index searcher_actions with
  | none => none
  | some rev_usd =>
    let gas_used := tx_info.gas_details.gas_paid
    let gas_used_usd := metadata.get_gas_price_usd gas_used
    if rev_usd - gas_used_usd ≤ 0 then none
    else some (rev_usd - gas_used_usd)

/-- `process_cross_pair_arb` (lines 156–179): the source duplicates the
triangle body verbatim. -/
def process_cross_pair_arb (inner : AtomicUtilsEnv) (tx_info : TxInfo)
    (metadata : Metadata) (searcher_actions : List (List Actions)) : Option ℚ :=
  match inner.get_dex_revenue_usd tx_info.tx_index searcher_actions with
  | none => none
  | some rev_usd =>
    let gas_used := tx_info.gas_details.gas_paid
    let gas_used_usd := metadata.get_gas_price_usd gas_used
    if rev_usd - gas_used_usd ≤ 0 then none
    else some (rev_usd - gas_used_usd)

/-- `AtomicArbInspector::process_swaps` (lines 57–111). -/
def process_swaps (inner : AtomicUtilsEnv) (info : TxInfo) (metadata : Metadata)
    (searcher_actions : List (List Actions)) : Option Bundle :=
  match is_possible_arb (flatten_swaps searcher_actions) with
  | none => none
  | some possible_arb_type =>
    match
      (match possible_arb_type with
        | .LongTail => none
        | .Triangle => process_triangle_arb inner info metadata searcher_actions
        | .CrossPair => process_cross_pair_arb inner info metadata searcher_actions) with
    | none => none
    | some profit =>
      let header := inner.build_bundle_header info profit searcher_actions
        [info.gas_details]
      some
        { header := header
          data := BundleData.AtomicArb
            { tx_hash := info.tx_hash
              gas_details := info.gas_details
              swaps := payload_swaps searcher_actions } }

/-! ### Claim C9: shape classification -/

/-- Boolean chain check: every swap's `token_in` matches the running
`last_out`. -/
def linked (a : Address) : List NormalizedSwap → Bool
  | [] => true
  | s :: rest => decide (s.token_in.address = a) && linked s.token_out.address rest

theorem arb_walk_eq_linked : ∀ (rest : List NormalizedSwap) (a : Address),
    arb_walk a rest = if linked a rest then .Triangle else .CrossPair := by
  intro rest
  induction rest with
  | nil => intro a; simp [arb_walk, linked]
  | cons s rest ih =>
    intro a
    by_cases h : s.token_in.address = a
    · simp [arb_walk, linked, h, ih]
    · simp [arb_walk, linked, h]

theorem linked_iff_chain : ∀ (rest : List NormalizedSwap) (first : NormalizedSwap),
    linked first.token_out.address rest = true
      ↔ List.Chain (fun a b => b.token_in.address = a.token_out.address) first rest := by
  intro rest
  induction rest with
  | nil =>
    intro first
    constructor
    · intro _
      exact List.Chain.nil
    · intro _
      rfl
  | cons s rest ih =>
    intro first
    simp [linked, List.chain_cons, ih s, And.comm]

/-- C9: shape classification is total and deterministic — `is_possible_arb`
is a function returning a value for every flattened swap list; and for lists
of three or more swaps it returns `LongTail` when the first `token_in` differs
from the last `token_out`, `Triangle` when additionally every swap's
`token_in` equals the previous swap's `token_out` (the chain condition), and
`CrossPair` otherwise. -/
theorem c9_classification_total :
    (∀ swaps : List NormalizedSwap, (is_possible_arb swaps).isSome = true)
    ∧ (∀ (s0 s1 s2 : NormalizedSwap) (rest : List NormalizedSwap),
      is_possible_arb (s0 :: s1 :: s2 :: rest)
        = some (
          if s0.token_in.address ≠ ((s1 :: s2 :: rest).getLastD s0).token_out.address
          then .LongTail
          else if List.Chain' (fun a b => b.token_in.address = a.token_out.address)
              (s0 :: s1 :: s2 :: rest)
          then .Triangle
          else .CrossPair)) := by
  constructor
  · intro swaps
    unfold is_possible_arb
    split_ifs with h1 h2
    · rfl
    · cases swaps with
      | nil => rfl
      | cons a t =>
        cases t with
        | nil => rfl
        | cons b t2 =>
          dsimp only
          split_ifs <;> rfl
    · rfl
  · intro s0 s1 s2 rest
    unfold is_possible_arb
    rw [if_neg (by simp), if_neg (by simp)]
    unfold identify_arb_sequence
    simp only []
    by_cases h : s0.token_in.address = ((s1 :: s2 :: rest).getLastD s0).token_out.address
    · rw [if_neg (by simpa using h), if_neg (by simpa using h)]
      rw [arb_walk_eq_linked]
      have hchain : List.Chain' (fun a b => b.token_in.address = a.token_out.address)
          (s0 :: s1 :: s2 :: rest)
          ↔ List.Chain (fun a b => b.token_in.address = a.token_out.address) s0
            (s1 :: s2 :: rest) := Iff.rfl
      by_cases hl : linked s0.token_out.address (s1 :: s2 :: rest) = true
      · rw [if_pos hl, if_pos (hchain.mpr ((linked_iff_chain _ s0).mp hl))]
      · rw [if_neg hl, if_neg (fun hc => hl ((linked_iff_chain _ s0).mpr
          (hchain.mp hc)))]
    · rw [if_pos (by simpa using h), if_pos (by simpa using h)]

/-! ### Claim C8: emitted payload swap list -/

theorem flatten_swaps_eq_payload_of_no_flash_loan
    (searcher_actions : List (List Actions))
    (h : searcher_actions.flatten.all (fun a => !a.is_flash_loan) = true) :
    flatten_swaps searcher_actions = payload_swaps searcher_actions := by
  unfold flatten_swaps payload_swaps
  generalize searcher_actions.flatten = L at h ⊢
  revert h
  induction L with
  | nil => intro h; simp
  | cons a t ih =>
    intro h
    simp only [List.all_cons, Bool.and_eq_true] at h
    have ht := ih h.2
    cases a with
    | Swap s =>
      rw [List.filter_cons, List.filter_cons,
        if_pos (show ((Actions.Swap s).is_swap || (Actions.Swap s).is_flash_loan) = true
          from rfl),
        if_pos (show (Actions.Swap s).is_swap = true from rfl),
        List.flatMap_cons, List.map_cons, ht]
      rfl
    | Transfer =>
      rw [List.filter_cons, List.filter_cons,
        if_neg (by simp [Actions.is_swap, Actions.is_flash_loan]),
        if_neg (by simp [Actions.is_swap])]
      exact ht
    | FlashLoan f =>
      exact absurd h.1 (by simp [Actions.is_flash_loan])
    | Other =>
      rw [List.filter_cons, List.filter_cons,
        if_neg (by simp [Actions.is_swap, Actions.is_flash_loan]),
        if_neg (by simp [Actions.is_swap])]
      exact ht

/-- C8 (amended): the `swaps` field of every emitted `AtomicArb` payload is
the list of TOP-LEVEL swap actions of the transaction — swap children inside
flash-loan wrappers are part of the flattened list used for classification but
are NOT included in the payload; in particular the two lists agree whenever
no flash-loan action is present.  (The converse does not hold: a flash-loan
wrapper without swap children also leaves the two lists equal.) -/
theorem c8_payload_swaps_amended (inner : AtomicUtilsEnv) (info : TxInfo)
    (metadata : Metadata) (searcher_actions : List (List Actions)) (b : Bundle)
    (h : process_swaps inner info metadata searcher_actions = some b) :
    (match b.data with | BundleData.AtomicArb a => a.swaps)
        = payload_swaps searcher_actions
    ∧ (searcher_actions.flatten.all (fun a => !a.is_flash_loan) = true
        → payload_swaps searcher_actions = flatten_swaps searcher_actions) := by
  constructor
  · simp only [process_swaps] at h
    split at h
    · cases h
    · split at h
      · cases h
      · cases h
        rfl
  · intro hf
    exact (flatten_swaps_eq_payload_of_no_flash_loan searcher_actions hf).symm

def c8s1 : NormalizedSwap := ⟨⟨10⟩, ⟨20⟩, 1, 1⟩

def c8s2 : NormalizedSwap := ⟨⟨20⟩, ⟨10⟩, 1, 1⟩

def c8gd : GasDetails := ⟨1, 0, 1, none⟩

def c8info : TxInfo := ⟨5, 0, c8gd⟩

def c8meta : Metadata := ⟨fun _ => 1⟩

def c8header : BundleHeader :=
  { block_number := 0, tx_index := 0, tx_hash := 5, eoa := 0, mev_contract := 0
    profit_usd := 4, token_profits := ⟨[]⟩, bribe_usd := 1
    mev_type := MevType.AtomicArb }

def c8env : AtomicUtilsEnv := ⟨fun _ _ => some 5, fun _ _ _ _ => c8header⟩

/-- One transaction whose swap `c8s1` sits inside a flash-loan wrapper and
whose swap `c8s2` is top-level. -/
def c8actions : List (List Actions) :=
  [[Actions.FlashLoan [Actions.Swap c8s1], Actions.Swap c8s2]]

def c8bundle : Bundle :=
  ⟨c8header, BundleData.AtomicArb ⟨5, c8gd, [c8s2]⟩⟩

/-- C8 counterexample: for a transaction whose first swap is inside a
flash-loan wrapper, the flattened list used for classification is
`[c8s1, c8s2]` (a Triangle, emitted with positive profit), but the emitted
payload's `swaps` field is `[c8s2]` — the flash-loan child is missing, so the
payload does not equal the flattened classification list. -/
theorem c8_counterexample :
    flatten_swaps c8actions = [c8s1, c8s2]
    ∧ process_swaps c8env c8info c8meta c8actions = some c8bundle
    ∧ ([c8s2] : List NormalizedSwap) ≠ [c8s1, c8s2] := by
  refine ⟨?_, ?_, by simp⟩
  · norm_num [flatten_swaps, c8actions, Actions.is_swap, Actions.is_flash_loan,
      Actions.force_swap, List.filter_cons, List.flatMap_cons]
  · norm_num [process_swaps, flatten_swaps, payload_swaps, is_possible_arb,
      process_triangle_arb, c8env, c8info, c8meta, c8actions, c8s1, c8s2, c8gd,
      c8bundle, c8header, GasDetails.gas_paid, Actions.is_swap, Actions.is_flash_loan,
      Actions.force_swap, List.filter_cons, List.flatMap_cons]

/-- A flash-loan-free variant that also emits. -/
def c8actions2 : List (List Actions) := [[Actions.Swap c8s1, Actions.Swap c8s2]]

def c8bundle2 : Bundle :=
  ⟨c8header, BundleData.AtomicArb ⟨5, c8gd, [c8s1, c8s2]⟩⟩

theorem c8_payload_swaps_amended_witness :
    (match c8bundle.data with | BundleData.AtomicArb a => a.swaps)
        = payload_swaps c8actions
    ∧ payload_swaps c8actions2 = flatten_swaps c8actions2 :=
  ⟨(c8_payload_swaps_amended c8env c8info c8meta c8actions c8bundle
      (by norm_num [process_swaps, flatten_swaps, payload_swaps, is_possible_arb,
        process_triangle_arb, c8env, c8info, c8meta, c8actions, c8s1, c8s2, c8gd,
        c8bundle, c8header, GasDetails.gas_paid, Actions.is_swap, Actions.is_flash_loan,
        Actions.force_swap, List.filter_cons, List.flatMap_cons])).1,
   (c8_payload_swaps_amended c8env c8info c8meta c8actions2 c8bundle2
      (by norm_num [process_swaps, flatten_swaps, payload_swaps, is_possible_arb,
        process_triangle_arb, c8env, c8info, c8meta, c8actions2, c8s1, c8s2, c8gd,
        c8bundle2, c8header, GasDetails.gas_paid, Actions.is_swap, Actions.is_flash_loan,
        Actions.force_swap, List.filter_cons, List.flatMap_cons])).2 rfl⟩

end AtomicIns

/-! ## Range executor (bin/src/executors/range.rs) -/

namespace RangeExec

/-- The result of one `collector.poll_next_unpin(cx)` call: `Ready(Some(tree,
meta))` spawns an insertion future (we record only the number of executor loop
iterations the spawned `process_results` future needs before completing),
`Ready(None)` signals the collector stream ended, `Pending` is `Poll::Pending`. -/
inductive PollNextResult where
  | ready (spawn : Option ℕ)
  | pending
deriving DecidableEq, Repr

/-- Modelled from the spec: the `StateCollector` (executors/shared, not among
the sampled sources) through the exact interface the executor's poll loop
calls, as abstract data over a collector state `σ` (spec §4.3). -/
structure CollectorIface (σ : Type) where
  is_collecting_state : σ → Bool
  should_process_next_block : σ → Bool
  fetch_state_for : ℕ → σ → σ
  poll_next : σ → σ × PollNextResult
  range_finished : σ → σ

/-- The executor state of `RangeExecutorWithPricing` (lines 17–25): collector,
the `FuturesUnordered` insertion set (as remaining iteration counts), and the
block range cursor.  `completed` counts finished insertions — an observation
added by the model. -/
structure ExecState (σ : Type) where
  collector : σ
  insert_futures : List ℕ
  current_block : ℕ
  end_block : ℕ
  completed : ℕ
deriving DecidableEq, Repr

/-- One pass of `while let Poll::Ready(Some(_)) = insert_futures.poll_next`:
every in-flight insertion future makes one unit of progress and the completed
ones are drained.  (Asynchronous progress of the spawned futures is modelled
as one unit per executor loop iteration.) -/
def stepInsertFutures (l : List ℕ) : List ℕ × ℕ :=
  let stepped := l.map (fun d => d - 1)
  (stepped.filter (fun d => d ≠ 0), (stepped.filter (fun d => d = 0)).length)

/-- The insertion-drain and range-completion tail of one loop iteration
(lines 99–108). -/
def loopIterTail {σ : Type} (iface : CollectorIface σ) (s : ExecState σ) :
    ExecState σ × Bool :=
  let drained := stepInsertFutures s.insert_futures
  let s1 : ExecState σ :=
    { s with insert_futures := drained.1, completed := s.completed + drained.2 }
  let s2 : ExecState σ :=
    if s1.current_block = s1.end_block ∧ s1.insert_futures.isEmpty
        ∧ iface.is_collecting_state s1.collector = false then
      { s1 with collector := iface.range_finished s1.collector }
    else s1
  (s2, false)

/-- One iteration of the poll loop of `RangeExecutorWithPricing::poll` (lines
79–115): fetch the next block when the collector is free, poll the collector
(spawning an insertion future on `Ready(Some(..))`, returning `Poll::Ready`
on `Ready(None)` with an empty insertion set), drain completed insertions, and
signal `range_finished` when the range is done.  The `Bool` is `true` when the
executor future completes (line 94). -/
def loopIter {σ : Type} (iface : CollectorIface σ) (s : ExecState σ) :
    ExecState σ × Bool :=
  let s0 : ExecState σ :=
    if iface.is_collecting_state s.collector = false
        ∧ iface.should_process_next_block s.collector = true
        ∧ s.current_block ≠ s.end_block then
      { s with collector := iface.fetch_state_for s.current_block s.collector
               current_block := s.current_block + 1 }
    else s
  let polled := iface.poll_next s0.collector
  let s1 : ExecState σ := { s0 with collector := polled.1 }
  match polled.2 with
  | .ready (some dur) =>
    loopIterTail iface { s1 with insert_futures := s1.insert_futures ++ [dur] }
  | .ready none =>
    if s1.insert_futures.isEmpty then (s1, true) else loopIterTail iface s1
  | .pending => loopIterTail iface s1

/-- `RangeExecutorWithPricing::poll` (lines 77–116): up to 256 loop iterations
(the fairness work budget), then `Poll::Pending` (`false`). -/
def pollExecutor {σ : Type} (iface : CollectorIface σ) :
    ℕ → ExecState σ → ExecState σ × Bool
  | 0, s => (s, false)
  | work + 1, s =>
    match loopIter iface s with
    | (s1, true) => (s1, true)
    | (s1, false) => pollExecutor iface work s1

/-- The observable outcome of `run_until_graceful_shutdown`: the final
executor state, the insertion futures that were still in flight when the
function returned (these are dropped, i.e. cancelled, together with the
pinned `data_batching`), and whether the executor future itself completed. -/
structure RunResult (σ : Type) where
  state : ExecState σ
  cancelled : List ℕ
  finished : Bool
deriving DecidableEq, Repr

/-- `RangeExecutorWithPricing::run_until_graceful_shutdown` (lines 45–59):
`tokio::select!` polls `data_batching` until it completes — unless the
graceful-shutdown signal fires first (at scheduler tick `shutdownAt`), in
which case the select completes on the shutdown branch, the captured guard is
dropped, and the function returns immediately: the still-pending
`insert_futures` are dropped with `data_batching` (no drain loop exists in the
body).  `fuel` bounds the number of scheduler ticks of the run we examine. -/
def run_until_graceful_shutdown {σ : Type} (iface : CollectorIface σ)
    (shutdownAt : Option ℕ) : ℕ → ℕ → ExecState σ → RunResult σ
  | 0, _, s => ⟨s, [], false⟩
  | fuel + 1, tick, s =>
    if shutdownAt = some tick then ⟨s, s.insert_futures, false⟩
    else
      match pollExecutor iface 256 s with
      | (s1, true) => ⟨s1, [], true⟩
      | (s1, false) => run_until_graceful_shutdown iface shutdownAt fuel (tick + 1) s1

/-- Schedule refuting the drain: the collector hands over one tuple at its
first poll, whose insertion future needs 1000 iterations; afterwards it is
pending forever. -/
def c1iface : CollectorIface ℕ :=
  { is_collecting_state := fun _ => false
    should_process_next_block := fun _ => true
    fetch_state_for := fun _ c => c
    poll_next := fun c =>
      (c + 1, if c = 0 then PollNextResult.ready (some 1000) else PollNextResult.pending)
    range_finished := fun c => c }

/-- Control schedule: same single tuple but a short (3-iteration) insertion,
and the collector stream ends from its fifth poll on. -/
def c1iface2 : CollectorIface ℕ :=
  { is_collecting_state := fun _ => false
    should_process_next_block := fun _ => true
    fetch_state_for := fun _ c => c
    poll_next := fun c =>
      (c + 1,
        if c = 0 then PollNextResult.ready (some 3)
        else if 4 ≤ c then PollNextResult.ready none
        else PollNextResult.pending)
    range_finished := fun c => c }

/-- Start state: the block range is already exhausted (`current = end`), no
insertion in flight. -/
def c1state0 : ExecState ℕ := ⟨0, [], 5, 5, 0⟩

theorem pollExecutor_succ {σ : Type} (iface : CollectorIface σ) (w : ℕ)
    (s : ExecState σ) :
    pollExecutor iface (w + 1) s
      = match loopIter iface s with
        | (s1, true) => (s1, true)
        | (s1, false) => pollExecutor iface w s1 := rfl

/-- In the steady phase of the `c1iface` schedule (collector pending, one
insertion future that outlasts the budget), each iteration only advances the
collector counter and the future's progress. -/
theorem pollExecutor_c1iface_steady : ∀ (w c d : ℕ), 1 ≤ c → w < d →
    pollExecutor c1iface w ⟨c, [d], 5, 5, 0⟩ = (⟨c + w, [d - w], 5, 5, 0⟩, false) := by
  intro w
  induction w with
  | zero => intro c d _ _; simp [pollExecutor]
  | succ w ih =>
    intro c d hc hd
    have hc0 : ¬c = 0 := by omega
    have hstep : loopIter c1iface ⟨c, [d], 5, 5, 0⟩ = (⟨c + 1, [d - 1], 5, 5, 0⟩, false) := by
      have hd1 : ¬d - 1 = 0 := by omega
      simp [loopIter, loopIterTail, stepInsertFutures, c1iface, hc0, hd1,
        List.filter_cons]
    rw [pollExecutor_succ, hstep]
    dsimp only
    rw [ih (c + 1) (d - 1) (by omega) (by omega)]
    rw [show c + 1 + w = c + (w + 1) from by omega,
      show d - 1 - w = d - (w + 1) from by omega]

theorem c1_poll_first :
    pollExecutor c1iface 256 c1state0 = (⟨256, [744], 5, 5, 0⟩, false) := by
  have h0 : loopIter c1iface c1state0 = (⟨1, [999], 5, 5, 0⟩, false) := by decide
  rw [show (256 : ℕ) = 255 + 1 from rfl, pollExecutor_succ, h0]
  simpa using pollExecutor_c1iface_steady 255 1 999 (by norm_num) (by norm_num)

theorem run_until_graceful_shutdown_succ {σ : Type} (iface : CollectorIface σ)
    (shutdownAt : Option ℕ) (fuel tick : ℕ) (s : ExecState σ) :
    run_until_graceful_shutdown iface shutdownAt (fuel + 1) tick s
      = if shutdownAt = some tick then ⟨s, s.insert_futures, false⟩
        else
          match pollExecutor iface 256 s with
          | (s1, true) => ⟨s1, [], true⟩
          | (s1, false) =>
            run_until_graceful_shutdown iface shutdownAt fuel (tick + 1) s1 := rfl

/-- C1: the code contradicts the claim.  When the graceful-shutdown signal
fires while an insertion future is in flight (tick 1; the future spawned at
tick 0 still needs 744 iterations), `run_until_graceful_shutdown` returns at
once from the `select!` with the insertion neither completed nor awaited — the
insertion set is dropped (cancelled), and the guard is dropped without any
drain.  Control: without a shutdown signal the same executor completes the
insertion (`completed = 1`) and finishes with nothing cancelled, so the early
return is precisely the effect of the missing drain loop. -/
theorem c1_shutdown_drops_inflight_insertions :
    run_until_graceful_shutdown c1iface (some 1) 10 0 c1state0
      = ⟨⟨256, [744], 5, 5, 0⟩, [744], false⟩
    ∧ ([744] : List ℕ) ≠ []
    ∧ (run_until_graceful_shutdown c1iface2 none 10 0 c1state0).finished = true
    ∧ (run_until_graceful_shutdown c1iface2 none 10 0 c1state0).state.completed = 1
    ∧ (run_until_graceful_shutdown c1iface2 none 10 0 c1state0).cancelled = [] := by
  refine ⟨?_, by simp, ?_, ?_, ?_⟩
  · rw [show (10 : ℕ) = 9 + 1 from rfl, run_until_graceful_shutdown_succ]
    rw [if_neg (by simp), c1_poll_first]
    dsimp only
    rw [run_until_graceful_shutdown_succ, if_pos rfl]
  · decide
  · decide
  · decide

end RangeExec

end Brontes
